import Mathlib

/-!
Verification of the scylla-sstable tool core (tools/scylla-sstable.cc).

This file shallowly embeds the parts of the tool that the claims are about:

* the structured (JSON) dumper of the fragment stream (class
  dumping_consumer::json_dumper),
* the structured-stream parser (class json_mutation_stream_parser::handler),
* the reader driver (consume_reader),
* the writetime-histogram consumer (writetime_histogram_collecting_consumer),
* the decompress and write operations.

The fragment / mutation data model (partition_start, clustering_row,
row_marker, tombstone, ...) lives outside the given sources; following the
specification (sections 3 and 4.11) those types are modelled here from the
spec: keys are their raw byte strings, cells are atomic (live or dead), a
tombstone is a (timestamp, deletion_time) pair or empty, a row tombstone has
a regular and a shadowable component with the shadowable at least as strong
as the regular one.  External scalar codecs (hex, decimal, the date form of
deletion_time/expiry and its inverse timestamp_from_string) are modelled as
concrete executable codecs with the round-trip contract the spec requires of
them.
-/

namespace ScyllaSstable

/-! ## Byte strings and the hex codec

Models utils to_hex / from_hex (external utilities): lowercase two-digit hex
per byte. -/

abbrev Bytes := List Nat

def hexDigitChar (d : Nat) : Char :=
  if d < 10 then Char.ofNat (48 + d) else Char.ofNat (87 + d)

def hexDigitVal (c : Char) : Option Nat :=
  if 48 ≤ c.toNat ∧ c.toNat ≤ 57 then some (c.toNat - 48)
  else if 97 ≤ c.toNat ∧ c.toNat ≤ 102 then some (c.toNat - 87)
  else if 65 ≤ c.toNat ∧ c.toNat ≤ 70 then some (c.toNat - 55)
  else none

def byteHexChars (b : Nat) : List Char :=
  [hexDigitChar (b / 16), hexDigitChar (b % 16)]

def bytesHexChars : Bytes → List Char
  | [] => []
  | b :: bs => byteHexChars b ++ bytesHexChars bs

def toHex (bs : Bytes) : String := String.mk (bytesHexChars bs)

def fromHexChars : List Char → Option Bytes
  | [] => some []
  | [_] => none
  | c1 :: c2 :: rest =>
    match hexDigitVal c1, hexDigitVal c2, fromHexChars rest with
    | some h, some l, some bs => some ((16 * h + l) :: bs)
    | _, _, _ => none

def fromHex (s : String) : Option Bytes := fromHexChars s.data

theorem hexDigitVal_hexDigitChar : ∀ d < 16, hexDigitVal (hexDigitChar d) = some d := by
  decide

theorem fromHexChars_bytesHexChars (bs : Bytes) (h : ∀ b ∈ bs, b < 256) :
    fromHexChars (bytesHexChars bs) = some bs := by
  induction bs with
  | nil => rfl
  | cons b bs ih =>
    have hb : b < 256 := h b (by simp)
    have h1 : b / 16 < 16 := by omega
    have h2 : b % 16 < 16 := Nat.mod_lt _ (by norm_num)
    have ihh := ih (fun x hx => h x (by simp [hx]))
    have hcons : bytesHexChars (b :: bs) =
        hexDigitChar (b / 16) :: hexDigitChar (b % 16) :: bytesHexChars bs := rfl
    rw [hcons]
    simp only [fromHexChars, hexDigitVal_hexDigitChar _ h1, hexDigitVal_hexDigitChar _ h2, ihh]
    have : 16 * (b / 16) + b % 16 = b := by omega
    rw [this]

theorem fromHex_toHex (bs : Bytes) (h : ∀ b ∈ bs, b < 256) :
    fromHex (toHex bs) = some bs := by
  unfold fromHex toHex
  exact fromHexChars_bytesHexChars bs h

/-! ## Decimal codec

Models the decimal rendering of integers (fmt) and the standard-library
decimal parse used by parse_ttl (std::stringstream).  Built on Nat.digits so
that the round trip is provable. -/

def decDigitChar (d : Nat) : Char := Char.ofNat (48 + d)

def decDigitVal (c : Char) : Option Nat :=
  if 48 ≤ c.toNat ∧ c.toNat ≤ 57 then some (c.toNat - 48) else none

def natReprChars (n : Nat) : List Char :=
  if n = 0 then [Char.ofNat 48] else ((Nat.digits 10 n).reverse.map decDigitChar)

def natRepr (n : Nat) : String := String.mk (natReprChars n)

def parseDigits : List Char → Option (List Nat)
  | [] => some []
  | c :: cs =>
    match decDigitVal c, parseDigits cs with
    | some d, some ds => some (d :: ds)
    | _, _ => none

def parseNatChars (cs : List Char) : Option Nat :=
  match cs, parseDigits cs with
  | [], _ => none
  | _, some ds => some (Nat.ofDigits 10 ds.reverse)
  | _, none => none

def parseNatStr (s : String) : Option Nat := parseNatChars s.data

theorem decDigitVal_decDigitChar : ∀ d < 10, decDigitVal (decDigitChar d) = some d := by
  decide

theorem parseDigits_map (ds : List Nat) (h : ∀ d ∈ ds, d < 10) :
    parseDigits (ds.map decDigitChar) = some ds := by
  induction ds with
  | nil => rfl
  | cons d ds ih =>
    have hd := decDigitVal_decDigitChar d (h d (by simp))
    have ihh := ih (fun x hx => h x (by simp [hx]))
    simp only [List.map, parseDigits, hd, ihh]

theorem parseNatChars_natReprChars (n : Nat) : parseNatChars (natReprChars n) = some n := by
  by_cases h0 : n = 0
  · subst h0; decide
  · unfold natReprChars
    rw [if_neg h0]
    have hdig : ∀ d ∈ (Nat.digits 10 n).reverse, d < 10 := by
      intro d hd
      exact Nat.digits_lt_base (by norm_num) (List.mem_reverse.mp hd)
    have hne : Nat.digits 10 n ≠ [] := Nat.digits_ne_nil_iff_ne_zero.mpr h0
    have hpd := parseDigits_map _ hdig
    unfold parseNatChars
    cases hc : (Nat.digits 10 n).reverse.map decDigitChar with
    | nil =>
      exfalso
      have : (Nat.digits 10 n).reverse = [] := by
        cases hrev : (Nat.digits 10 n).reverse with
        | nil => rfl
        | cons a l => rw [hrev] at hc; simp [List.map] at hc
      exact hne (List.reverse_eq_nil_iff.mp this)
    | cons c cs =>
      rw [hc] at hpd
      simp only [hpd, List.reverse_reverse]
      rw [Nat.ofDigits_digits]

theorem parseNatStr_natRepr (n : Nat) : parseNatStr (natRepr n) = some n := by
  unfold parseNatStr natRepr
  exact parseNatChars_natReprChars n

def intReprChars (i : Int) : List Char :=
  if i < 0 then Char.ofNat 45 :: natReprChars i.natAbs else natReprChars i.toNat

def intRepr (i : Int) : String := String.mk (intReprChars i)

def parseIntChars (cs : List Char) : Option Int :=
  match cs with
  | [] => none
  | c :: rest =>
    if c = Char.ofNat 45 then (parseNatChars rest).map (fun n => -(Int.ofNat n))
    else (parseNatChars (c :: rest)).map (fun n => Int.ofNat n)

def parseIntStr (s : String) : Option Int := parseIntChars s.data

theorem natReprChars_ne_nil (n : Nat) : natReprChars n ≠ [] := by
  unfold natReprChars
  by_cases h0 : n = 0
  · simp [h0]
  · rw [if_neg h0]
    intro hc
    have : (Nat.digits 10 n).reverse = [] := by
      cases hrev : (Nat.digits 10 n).reverse with
      | nil => rfl
      | cons a l => rw [hrev] at hc; simp [List.map] at hc
    exact (Nat.digits_ne_nil_iff_ne_zero.mpr h0) (List.reverse_eq_nil_iff.mp this)

theorem natReprChars_head_digit (n : Nat) (c : Char) (cs : List Char)
    (h : natReprChars n = c :: cs) : (decDigitVal c).isSome := by
  unfold natReprChars at h
  by_cases h0 : n = 0
  · rw [h0] at h
    simp only [if_pos rfl] at h
    cases h
    decide
  · rw [if_neg h0] at h
    cases hrev : (Nat.digits 10 n).reverse with
    | nil =>
      exact absurd (List.reverse_eq_nil_iff.mp hrev) (Nat.digits_ne_nil_iff_ne_zero.mpr h0)
    | cons d ds =>
      rw [hrev] at h
      simp only [List.map] at h
      have hd : d < 10 := Nat.digits_lt_base (by norm_num) (List.mem_reverse.mp (by rw [hrev]; simp))
      have hc : c = decDigitChar d := by cases h; rfl
      rw [hc, decDigitVal_decDigitChar d hd]
      rfl

theorem natReprChars_head_ne_minus (n : Nat) (c : Char) (cs : List Char)
    (h : natReprChars n = c :: cs) : c ≠ Char.ofNat 45 := by
  intro hc
  have := natReprChars_head_digit n c cs h
  rw [hc] at this
  simp [decDigitVal] at this

theorem parseIntChars_intReprChars (i : Int) : parseIntChars (intReprChars i) = some i := by
  unfold intReprChars
  by_cases hneg : i < 0
  · rw [if_pos hneg]
    have hstep : parseIntChars (Char.ofNat 45 :: natReprChars i.natAbs)
        = if Char.ofNat 45 = Char.ofNat 45 then (parseNatChars (natReprChars i.natAbs)).map (fun n => -(Int.ofNat n))
          else (parseNatChars (Char.ofNat 45 :: natReprChars i.natAbs)).map (fun n => Int.ofNat n) := rfl
    rw [hstep, if_pos rfl, parseNatChars_natReprChars]
    simp only [Option.map_some']
    congr 1
    simp only [Int.ofNat_eq_natCast]
    omega
  · rw [if_neg hneg]
    cases hc : natReprChars i.toNat with
    | nil => exact absurd hc (natReprChars_ne_nil _)
    | cons c cs =>
      have hnm := natReprChars_head_ne_minus _ _ _ hc
      have hstep : parseIntChars (c :: cs)
          = if c = Char.ofNat 45 then (parseNatChars cs).map (fun n => -(Int.ofNat n))
            else (parseNatChars (c :: cs)).map (fun n => Int.ofNat n) := rfl
      rw [hstep, if_neg hnm, ← hc, parseNatChars_natReprChars]
      simp only [Option.map_some']
      congr 1
      simp only [Int.ofNat_eq_natCast]
      omega

theorem parseIntStr_intRepr (i : Int) : parseIntStr (intRepr i) = some i := by
  unfold parseIntStr intRepr
  exact parseIntChars_intReprChars i

/-! ## Mutation data model

Modelled from the spec (section 3): the mutation fragment types live outside
the provided sources.  Keys are opaque byte tuples, represented by their raw
byte serialization (partition_key::from_bytes / representation are mutually
inverse).  A tombstone is (timestamp, deletion_time) or empty (empty is
represented by none).  Cells are atomic: live (timestamp, value, optional
jointly-present ttl+expiry) or dead (timestamp, deletion_time).  Cell values
are kept in their textual form; the schema value codec (type to_string /
from_string) is modelled as the identity, per the spec round-trip contract.
A row tombstone has a regular and a shadowable component, the shadowable one
at least as strong as the regular one. -/

structure Tombstone where
  timestamp : Int
  deletionTime : Int
  deriving DecidableEq, Repr

/-- Tombstone comparison: by timestamp, then deletion time (models the
tombstone tuple comparison; empty, i.e. none, is the minimum). -/
def tombLt (a b : Tombstone) : Bool :=
  a.timestamp < b.timestamp ∨ (a.timestamp = b.timestamp ∧ a.deletionTime < b.deletionTime)

/-- tombstone::apply of the mutation model: keep the stronger of the two
(none is the empty tombstone, weaker than everything). -/
def tombApply (cur t : Option Tombstone) : Option Tombstone :=
  match cur, t with
  | none, t => t
  | some c, none => some c
  | some c, some u => if tombLt c u then some u else some c

structure RowTombstone where
  regular : Option Tombstone
  shadowable : Option Tombstone
  deriving DecidableEq, Repr

/-- row_tombstone() (the empty row tombstone). -/
def RowTombstone.empty : RowTombstone := ⟨none, none⟩

/-- row_tombstone(tombstone t): both components set to t. -/
def RowTombstone.ofTomb (t : Option Tombstone) : RowTombstone := ⟨t, t⟩

/-- row_tombstone::tomb(): the shadowable component (the stronger one). -/
def RowTombstone.tomb (rt : RowTombstone) : Option Tombstone := rt.shadowable

/-- explicit operator bool of row_tombstone: tests the shadowable component. -/
def RowTombstone.isPresent (rt : RowTombstone) : Bool := rt.shadowable.isSome

/-- row_tombstone::apply(shadowable_tombstone, row_marker()): the shadowable
component absorbs the applied tombstone. -/
def RowTombstone.applyShadowable (rt : RowTombstone) (t : Option Tombstone) : RowTombstone :=
  ⟨rt.regular, tombApply rt.shadowable t⟩

inductive Cell where
  | live (timestamp : Int) (value : String) (ttlExp : Option (Nat × Int))
  | dead (timestamp : Int) (deletionTime : Int)
  deriving DecidableEq, Repr

/-- A row as the ordered cells mapping (column name to cell); the C++ row is
keyed by column id, iterated in id order, which the name order mirrors. -/
abbrev Row := List (String × Cell)

/-- A row marker that is present: timestamp plus optional jointly-present
ttl+expiry.  A missing marker is none at the use site. -/
structure RowMarker where
  timestamp : Int
  ttlExp : Option (Nat × Int)
  deriving DecidableEq, Repr

inductive BoundWeight where
  | before_all
  | equal
  | after_all
  deriving DecidableEq, Repr

def BoundWeight.toInt : BoundWeight → Int
  | .before_all => -1
  | .equal => 0
  | .after_all => 1

inductive Fragment where
  | partitionStart (key : Bytes) (tomb : Option Tombstone)
  | staticRow (cells : Row)
  | clusteringRow (key : Bytes) (tomb : RowTombstone) (marker : Option RowMarker) (cells : Row)
  | rangeTombstoneChange (key : Bytes) (weight : BoundWeight) (tomb : Option Tombstone)
  | partitionEnd
  deriving DecidableEq, Repr

/-! ## Schema

The core consumes an opaque schema; the parser only needs column lookup by
name together with the column kind and atomicity (get_column_definition,
column_definition::kind, column_definition::is_atomic). -/

inductive ColKind where
  | static_column
  | regular_column
  deriving DecidableEq, Repr

structure ColDef where
  kind : ColKind
  isAtomic : Bool
  deriving DecidableEq, Repr

structure Schema where
  cols : List (String × ColDef)
  deriving DecidableEq, Repr

def Schema.lookupCol (sch : Schema) (n : String) : Option ColDef :=
  (sch.cols.find? (fun p => p.1 = n)).map Prod.snd

/-- compare_atomic_cell_for_merge, modelled from the spec (section 4.4):
last-write-wins by timestamp with a deterministic tiebreak (dead beats live,
expiring beats non-expiring).  Only reachable on duplicate column names. -/
def cellMergeKey (c : Cell) : Int × Nat × Int :=
  match c with
  | .live ts _ none => (ts, 0, 0)
  | .live ts _ (some (_, exp)) => (ts, 1, exp)
  | .dead ts dt => (ts, 2, dt)

def cellLt (a b : Cell) : Bool :=
  let (ta, ka, sa) := cellMergeKey a
  let (tb, kb, sb) := cellMergeKey b
  ta < tb ∨ (ta = tb ∧ (ka < kb ∨ (ka = kb ∧ sa < sb)))

def mergeCell (a b : Cell) : Cell := if cellLt a b then b else a

/-- row::apply(column_definition, atomic_cell): add the cell under its column,
reconciling if the column is already present. -/
def rowApply (r : Row) (n : String) (c : Cell) : Row :=
  match r.find? (fun p => p.1 = n) with
  | none => r ++ [(n, c)]
  | some _ => r.map (fun p => if p.1 = n then (p.1, mergeCell p.2 c) else p)

/-! ## JSON events

The rapidjson SAX event alphabet shared by the dumper (json_writer calls)
and the parser (handler callbacks).  The four integer event flavours
(Int/Uint/Int64/Uint64) are handled identically by the handler and are
modelled by one intE event; Double's payload is never used. -/

inductive JsonEvent where
  | nullE
  | boolE (b : Bool)
  | intE (i : Int)
  | doubleE
  | rawNumberE
  | strE (s : String)
  | startObjectE
  | keyE (s : String)
  | endObjectE
  | startArrayE
  | endArrayE
  deriving DecidableEq, Repr

/-! ## Scalar renderings used by the dumper

gcTimeToString models json_dumper::to_string (the deletion_time/expiry date
form; the actual date rendering goes through external fmt/gmtime).  Modelled
from the spec (section 4.8 and the round-trip design note): an injective
rendering of the gc_clock second count with an exact parser inverse
(timestamp_from_string below, which reports milliseconds, is external).
durToString models the fmt rendering of gc_clock::duration, the seconds
count with an "s" suffix (spec, section 9).  keyValueString and
tokenString model the ignored human-readable forms (partition key
with_schema rendering and the partitioner token); the parser ignores both. -/

def gcTimeToString (t : Int) : String := intRepr (t * 1000)

def timestamp_from_string (s : String) : Option Int := parseIntStr s

def durToString (n : Nat) : String := natRepr n ++ "s"

def keyValueString (k : Bytes) : String := toHex k

def tokenString (k : Bytes) : String := natRepr (k.foldl (fun a b => 256 * a + b) 0)

/-! ## The structured dumper (dumping_consumer::json_dumper)

Each write method of json_dumper is modelled as the list of json_writer
events it produces.  The consumer itself is stateful across fragments (it
opens the clustering_elements array on the first clustering element and
closes it on partition_end); over a whole well-formed partition this is the
partition-shaped event list dumpPartition below. -/

def evConcat (f : α → List JsonEvent) : List α → List JsonEvent
  | [] => []
  | a :: r => f a ++ evConcat f r

/-- json_dumper::write(const tombstone&): empty object for the empty
tombstone, otherwise timestamp and deletion_time. -/
def dumpTombstone : Option Tombstone → List JsonEvent
  | none => [.startObjectE, .endObjectE]
  | some t => [.startObjectE, .keyE "timestamp", .intE t.timestamp,
      .keyE "deletion_time", .strE (gcTimeToString t.deletionTime), .endObjectE]

/-- json_dumper::write(const row_marker&): timestamp, plus ttl and expiry
when the marker is live and expiring. -/
def dumpMarker (m : RowMarker) : List JsonEvent :=
  [.startObjectE, .keyE "timestamp", .intE m.timestamp] ++
  (match m.ttlExp with
   | some (ttl, exp) => [.keyE "ttl", .strE (durToString ttl), .keyE "expiry", .strE (gcTimeToString exp)]
   | none => []) ++
  [.endObjectE]

/-- json_dumper::write(const atomic_cell_view&, data_type) for non-counter
cells: is_live, timestamp, then for live cells optional ttl+expiry and the
value; for dead cells the deletion_time. -/
def dumpCell : Cell → List JsonEvent
  | .live ts v te =>
    [.startObjectE, .keyE "is_live", .boolE true, .keyE "timestamp", .intE ts] ++
    (match te with
     | some (ttl, exp) => [.keyE "ttl", .strE (durToString ttl), .keyE "expiry", .strE (gcTimeToString exp)]
     | none => []) ++
    [.keyE "value", .strE v, .endObjectE]
  | .dead ts dt =>
    [.startObjectE, .keyE "is_live", .boolE false, .keyE "timestamp", .intE ts,
     .keyE "deletion_time", .strE (gcTimeToString dt), .endObjectE]

/-- json_dumper::write(const row&, column_kind): one key per cell, in row
iteration order. -/
def dumpRow (cells : Row) : List JsonEvent :=
  [.startObjectE] ++ evConcat (fun nc => .keyE nc.1 :: dumpCell nc.2) cells ++ [.endObjectE]

/-- json_dumper::write_key (clustering keys): raw hex plus the ignored
human-readable value. -/
def dumpKeyObj (k : Bytes) : List JsonEvent :=
  [.startObjectE, .keyE "raw", .strE (toHex k), .keyE "value", .strE (keyValueString k), .endObjectE]

/-- json_writer::PartitionKey: token, raw hex, human-readable value. -/
def dumpPartitionKeyObj (k : Bytes) : List JsonEvent :=
  [.startObjectE, .keyE "token", .strE (tokenString k), .keyE "raw", .strE (toHex k),
   .keyE "value", .strE (keyValueString k), .endObjectE]

/-- json_dumper::write(const clustering_row&): type, key, tombstone and
shadowable_tombstone together when the row tombstone is set, marker when not
missing, columns. -/
def dumpClusteringRow (key : Bytes) (tomb : RowTombstone) (marker : Option RowMarker) (cells : Row) :
    List JsonEvent :=
  [.startObjectE, .keyE "type", .strE "clustering-row", .keyE "key"] ++ dumpKeyObj key ++
  (if tomb.isPresent then
    [.keyE "tombstone"] ++ dumpTombstone tomb.regular ++
    [.keyE "shadowable_tombstone"] ++ dumpTombstone tomb.shadowable
   else []) ++
  (match marker with
   | some m => [.keyE "marker"] ++ dumpMarker m
   | none => []) ++
  [.keyE "columns"] ++ dumpRow cells ++ [.endObjectE]

/-- json_dumper::write(const range_tombstone_change&): type, key when the
position has one (the empty prefix is dumped without a key), weight,
tombstone (always, possibly empty). -/
def dumpRtc (key : Bytes) (weight : BoundWeight) (tomb : Option Tombstone) : List JsonEvent :=
  [.startObjectE, .keyE "type", .strE "range-tombstone-change"] ++
  (if key = [] then [] else [.keyE "key"] ++ dumpKeyObj key) ++
  [.keyE "weight", .intE weight.toInt, .keyE "tombstone"] ++ dumpTombstone tomb ++ [.endObjectE]

/-! ## Partition-shaped streams

A fragment stream inside the supported write subset is a concatenation of
partitions (spec, section 3); a partition is its key, an optional partition
tombstone, an optional static row and a list of clustering elements. -/

inductive CElem where
  | crow (key : Bytes) (tomb : RowTombstone) (marker : Option RowMarker) (cells : Row)
  | rtc (key : Bytes) (weight : BoundWeight) (tomb : Option Tombstone)
  deriving DecidableEq, Repr

structure PartitionData where
  key : Bytes
  tomb : Option Tombstone
  staticCells : Option Row
  elems : List CElem
  deriving DecidableEq, Repr

def fragOfElem : CElem → Fragment
  | .crow k t m cs => .clusteringRow k t m cs
  | .rtc k w t => .rangeTombstoneChange k w t

def fragmentsOfPartition (p : PartitionData) : List Fragment :=
  [.partitionStart p.key p.tomb] ++
  (match p.staticCells with
   | some cs => [.staticRow cs]
   | none => []) ++
  p.elems.map fragOfElem ++ [.partitionEnd]

def fragmentsOfStream (ps : List PartitionData) : List Fragment :=
  ps.flatMap fragmentsOfPartition

def dumpElem : CElem → List JsonEvent
  | .crow k t m cs => dumpClusteringRow k t m cs
  | .rtc k w t => dumpRtc k w t

/-- The json_dumper events for one partition: consume(partition_start)
opens the object and writes key and (when set) the partition tombstone;
consume(static_row) writes static_row; the first clustering element opens
the clustering_elements array; consume(partition_end) closes. -/
def dumpPartition (p : PartitionData) : List JsonEvent :=
  [.startObjectE, .keyE "key"] ++ dumpPartitionKeyObj p.key ++
  (match p.tomb with
   | some t => [.keyE "tombstone"] ++ dumpTombstone (some t)
   | none => []) ++
  (match p.staticCells with
   | some cs => [.keyE "static_row"] ++ dumpRow cs
   | none => []) ++
  (if p.elems.isEmpty then []
   else [.keyE "clustering_elements", .startArrayE] ++ evConcat dumpElem p.elems ++ [.endArrayE]) ++
  [.endObjectE]

/-- The per-sstable dump-data document (the $SSTABLE symbol of the schema in
the tool help): the array of partitions, as produced between
on_new_sstable's StartArray and on_end_of_sstable's EndArray.  This is also
exactly the document the write operation's parser consumes. -/
def dumpSstable (ps : List PartitionData) : List JsonEvent :=
  [.startArrayE] ++ evConcat dumpPartition ps ++ [.endArrayE]

/-! ## The structured-stream parser (json_mutation_stream_parser::handler)

The handler is a SAX event handler over an explicit state stack.  Scalar
events fill scratch fields and pop the top state, invoking a retire action;
object/array starts push states; object/array ends pop with retire.  Emitted
fragments go to the hand-off queue, modelled as the emitted list (a none
entry is the end-of-stream sentinel the parser pushes when retiring
before_partition). -/

inductive PState where
  | start
  | before_partition
  | in_partition
  | before_key
  | in_key
  | before_tombstone
  | in_tombstone
  | before_static_columns
  | before_clustering_elements
  | before_clustering_element
  | in_clustering_element
  | in_range_tombstone_change
  | in_clustering_row
  | before_marker
  | in_marker
  | before_clustering_columns
  | before_column_key
  | before_column
  | in_column
  | before_ignored_value
  | before_integer
  | before_string
  | before_bool
  deriving DecidableEq, Repr, Fintype

/-- handler::column: the per-column scratch. -/
structure ColScratch where
  name : String
  cdef : ColDef
  isLive : Option Bool
  timestamp : Option Int
  value : Option String
  deletionTime : Option Int
  deriving DecidableEq, Repr

/-- handler::tombstone: the tombstone scratch. -/
structure TombScratch where
  timestamp : Option Int
  deletionTime : Option Int
  deriving DecidableEq, Repr

/-- The handler state: the explicit state stack plus all scratch fields and
the emitted queue (none is the end-of-stream sentinel). -/
structure HState where
  stack : List PState
  lastKey : String
  psEmitted : Bool
  isShadowable : Bool
  boolV : Option Bool
  intV : Option Int
  strV : Option String
  pkeyV : Option Bytes
  tombV : Option TombScratch
  ckeyV : Option Bytes
  bwV : Option BoundWeight
  markerV : Option RowMarker
  rowTombV : Option RowTombstone
  rowV : Option Row
  colV : Option ColScratch
  ttlV : Option Nat
  expiryV : Option Int
  emitted : List (Option Fragment)
  deriving DecidableEq, Repr

def emitFrag (f : Fragment) (st : HState) : HState :=
  { st with emitted := st.emitted ++ [some f] }

/-- handler::get_tombstone. -/
def getTombstone (st : HState) : Except String (HState × Option Tombstone) :=
  match st.tombV with
  | none => .error "dereferenced empty tombstone scratch"
  | some sc =>
    if sc.timestamp.isSome ≠ sc.deletionTime.isSome then
      .error "incomplete tombstone: timestamp or deletion-time have to be either both present or missing"
    else
      match sc.timestamp, sc.deletionTime with
      | some ts, some dt => .ok ({ st with tombV := none }, some ⟨ts, dt⟩)
      | _, _ => .ok ({ st with tombV := none }, none)

/-- handler::finalize_partition_start. -/
def finalizePartitionStart (tomb : Option Tombstone) (st : HState) : Except String HState :=
  match st.pkeyV with
  | none => .error "failed to finalize partition start: no partition key"
  | some k => .ok (emitFrag (.partitionStart k tomb) { st with pkeyV := none, psEmitted := true })

/-- handler::finalize_static_row. -/
def finalizeStaticRow (st : HState) : Except String HState :=
  match st.rowV with
  | none => .error "failed to finalize clustering row: row is not initialized yet"
  | some r => .ok (emitFrag (.staticRow r) { st with rowV := none })

/-- handler::finalize_range_tombstone_change. -/
def finalizeRtc (st : HState) : Except String HState :=
  match st.bwV with
  | none => .error "failed to finalize range tombstone change: missing bound weight"
  | some w =>
    if w = .equal then
      .error "failed to finalize range tombstone change: equal is not valid for range tombstone changes"
    else
      match st.rowTombV with
      | none => .error "failed to finalize range tombstone change: missing tombstone"
      | some rt =>
        .ok (emitFrag (.rangeTombstoneChange (st.ckeyV.getD []) w rt.tomb)
          { st with ckeyV := none, bwV := none, rowTombV := none })

/-- handler::finalize_row_marker. -/
def finalizeRowMarker (st : HState) : Except String HState :=
  match st.markerV with
  | none => .error "failed to finalize row marker: it has no timestamp"
  | some m =>
    if st.expiryV.isSome ≠ st.ttlV.isSome then
      .error "failed to finalize row marker: ttl and expiry must either be both present or both missing"
    else
      match st.ttlV, st.expiryV with
      | none, none => .ok st
      | some ttl, some exp =>
        .ok { st with markerV := some ⟨m.timestamp, some (ttl, exp)⟩, ttlV := none, expiryV := none }
      | _, _ => .error "unreachable row marker state"

/-- handler::finalize_column. -/
def finalizeColumn (st : HState) : Except String HState :=
  match st.rowV with
  | none => .error "failed to finalize cell: row not initialized yet"
  | some r =>
    match st.colV with
    | none => .error "dereferenced empty column scratch"
    | some c =>
      match c.isLive, c.timestamp with
      | some isLive, some ts =>
        if isLive ∧ c.value.isNone then
          .error "failed to finalize cell: live cell does not have data"
        else if ¬isLive ∧ c.deletionTime.isNone then
          .error "failed to finalize cell: dead cell does not have deletion time"
        else if st.expiryV.isSome ≠ st.ttlV.isSome then
          .error "failed to finalize cell: ttl and expiry must either be both present or both missing"
        else if isLive then
          match c.value with
          | none => .error "unreachable live cell without value"
          | some v =>
            match st.ttlV, st.expiryV with
            | some ttl, some exp =>
              .ok { st with
                      rowV := some (rowApply r c.name (.live ts v (some (ttl, exp)))),
                      ttlV := none, expiryV := none, colV := none }
            | _, _ =>
              .ok { st with rowV := some (rowApply r c.name (.live ts v none)), colV := none }
        else
          match c.deletionTime with
          | none => .error "unreachable dead cell without deletion time"
          | some dt => .ok { st with rowV := some (rowApply r c.name (.dead ts dt)), colV := none }
      | _, _ => .error "failed to finalize cell: required fields is_live and/or timestamp missing"

/-- handler::finalize_clustering_row. -/
def finalizeClusteringRow (st : HState) : Except String HState :=
  match st.ckeyV with
  | none => .error "failed to finalize clustering row: missing clustering key"
  | some ck =>
    match st.rowV with
    | none => .error "failed to finalize clustering row: row is not initialized yet"
    | some r =>
      .ok (emitFrag (.clusteringRow ck (st.rowTombV.getD RowTombstone.empty) st.markerV r)
        { st with ckeyV := none, rowV := none, rowTombV := none, markerV := none })

/-- handler::finalize_partition: resets the partition-start flag and emits
partition_end (and nothing else). -/
def finalizePartition (st : HState) : HState :=
  emitFrag .partitionEnd { st with psEmitted := false }

/-- handler::parse_ttl: strip one trailing s if present, then a standard
decimal parse (std::stringstream into uint64_t). -/
def parseTtlStr (s : String) : Option Nat :=
  if s.data.getLast? = some (Char.ofNat 115) then parseNatChars s.data.dropLast
  else parseNatChars s.data

/-- handler::handle_retire_state plus handler::pop: matches on the stack
top, performs the retire action, pops pop_states entries and pushes the
optional next state. -/
def retire (st : HState) : Except String HState :=
  match st.stack with
  | .before_partition :: rest =>
    .ok { st with stack := rest, emitted := st.emitted ++ [none] }
  | .in_partition :: rest =>
    .ok { (finalizePartition st) with stack := rest }
  | .in_key :: _ :: rest => .ok { st with stack := rest }
  | .in_tombstone :: _ :: rest =>
    (match getTombstone { st with isShadowable := false } with
     | .error e => .error e
     | .ok (st1, tomb) =>
       match rest with
       | .in_partition :: _ => finalizePartitionStart tomb { st1 with stack := rest }
       | .in_range_tombstone_change :: _ =>
         .ok { st1 with stack := rest, rowTombV := some (RowTombstone.ofTomb tomb) }
       | .in_clustering_row :: _ =>
         if st.isShadowable then
           match st1.rowTombV with
           | none => .error "cannot apply shadowable tombstone, row tombstone not initialized yet"
           | some rt => .ok { st1 with stack := rest, rowTombV := some (rt.applyShadowable tomb) }
         else
           .ok { st1 with stack := rest, rowTombV := some (RowTombstone.ofTomb tomb) }
       | _ => .error "retiring in_tombstone state in invalid context")
  | .in_marker :: _ :: rest => finalizeRowMarker { st with stack := rest }
  | .in_column :: _ :: rest => finalizeColumn { st with stack := rest }
  | .before_column_key :: below :: rest =>
    if below = .before_static_columns then
      finalizeStaticRow { st with stack := rest }
    else
      .ok { st with stack := rest }
  | .before_clustering_element :: _ :: rest => .ok { st with stack := rest }
  | .in_range_tombstone_change :: _ :: rest => finalizeRtc { st with stack := rest }
  | .in_clustering_row :: _ :: rest => finalizeClusteringRow { st with stack := rest }
  | .before_ignored_value :: rest => .ok { st with stack := rest }
  | .before_bool :: rest =>
    if rest.head? = some .in_column then
      .ok { st with
              colV := st.colV.map (fun c => { c with isLive := st.boolV }),
              boolV := none, stack := rest }
    else
      .ok { st with boolV := none, stack := rest }
  | .before_integer :: rest =>
    (match rest with
     | .in_tombstone :: _ =>
       match st.intV with
       | none => .error "accessed empty integer scratch"
       | some i =>
         .ok { st with
                 tombV := st.tombV.map (fun sc => { sc with timestamp := some i }),
                 intV := none, stack := rest }
     | .in_range_tombstone_change :: _ =>
       match st.intV with
       | none => .error "accessed empty integer scratch"
       | some i =>
         if i = -1 then
           .ok { st with bwV := some .before_all, intV := none, stack := rest }
         else if i = 0 then
           .ok { st with bwV := some .equal, intV := none, stack := rest }
         else if i = 1 then
           .ok { st with bwV := some .after_all, intV := none, stack := rest }
         else
           .error "failed to parse bound weight: not a valid bound weight value"
     | .in_column :: _ =>
       .ok { st with
               colV := st.colV.map (fun c => { c with timestamp := st.intV }),
               intV := none, stack := rest }
     | .in_marker :: _ =>
       match st.intV with
       | none => .error "accessed empty integer scratch"
       | some i => .ok { st with markerV := some ⟨i, none⟩, intV := none, stack := rest }
     | _ => .ok { st with intV := none, stack := rest })
  | .before_string :: rest =>
    (match st.strV with
     | none => .error "accessed empty string scratch"
     | some s =>
       match rest with
       | .in_key :: _ :: ctx3 :: _ =>
         (match ctx3 with
          | .in_partition =>
            match fromHex s with
            | none => .error "failed to parse partition key from raw string"
            | some bs => .ok { st with pkeyV := some bs, strV := none, stack := rest }
          | .in_clustering_row =>
            match fromHex s with
            | none => .error "failed to parse clustering key from raw string"
            | some bs => .ok { st with ckeyV := some bs, strV := none, stack := rest }
          | .in_range_tombstone_change =>
            match fromHex s with
            | none => .error "failed to parse clustering key from raw string"
            | some bs => .ok { st with ckeyV := some bs, strV := none, stack := rest }
          | _ => .ok { st with strV := none, stack := rest })
       | .in_tombstone :: _ =>
         (match timestamp_from_string s with
          | none => .error "failed to parse deletion_time"
          | some ms =>
            .ok { st with
                    tombV := st.tombV.map (fun sc => { sc with deletionTime := some (ms.tdiv 1000) }),
                    strV := none, stack := rest })
       | .in_marker :: _ =>
         if st.lastKey = "ttl" then
           match parseTtlStr s with
           | none => .error "failed to parse ttl value"
           | some ttl => .ok { st with ttlV := some ttl, strV := none, stack := rest }
         else
           match timestamp_from_string s with
           | none => .error "failed to parse expiry"
           | some ms => .ok { st with expiryV := some (ms.tdiv 1000), strV := none, stack := rest }
       | .in_clustering_element :: _ =>
         if s = "clustering-row" then
           .ok { st with strV := none, stack := .in_clustering_row :: rest }
         else if s = "range-tombstone-change" then
           .ok { st with strV := none, stack := .in_range_tombstone_change :: rest }
         else
           .error "invalid clustering element type, expected clustering-row or range-tombstone-change"
       | .in_column :: _ =>
         if st.lastKey = "ttl" then
           match parseTtlStr s with
           | none => .error "failed to parse ttl value"
           | some ttl => .ok { st with ttlV := some ttl, strV := none, stack := rest }
         else if st.lastKey = "expiry" then
           match timestamp_from_string s with
           | none => .error "failed to parse expiry"
           | some ms => .ok { st with expiryV := some (ms.tdiv 1000), strV := none, stack := rest }
         else if st.lastKey = "deletion_time" then
           match timestamp_from_string s with
           | none => .error "failed to parse deletion_time"
           | some ms =>
             .ok { st with
                     colV := st.colV.map (fun c => { c with deletionTime := some (ms.tdiv 1000) }),
                     strV := none, stack := rest }
         else
           .ok { st with
                   colV := st.colV.map (fun c => { c with value := some s }),
                   strV := none, stack := rest }
       | _ => .ok { st with strV := none, stack := rest })
  | _ => .error "attempted to retire unexpected state"

/-- handler::push. -/
def pushState (s : PState) (st : HState) : HState := { st with stack := s :: st.stack }

/-- handler::Null. -/
def onNull (st : HState) : Except String HState :=
  match st.stack with
  | .before_ignored_value :: _ => retire st
  | _ => .error "unexpected json event Null"

/-- handler::Bool. -/
def onBool (b : Bool) (st : HState) : Except String HState :=
  match st.stack with
  | .before_bool :: _ => retire { st with boolV := some b }
  | _ => .error "unexpected json event Bool"

/-- handler::Int / Uint / Int64 / Uint64 (identical bodies). -/
def onInt (i : Int) (st : HState) : Except String HState :=
  match st.stack with
  | .before_ignored_value :: _ => retire st
  | .before_integer :: _ => retire { st with intV := some i }
  | _ => .error "unexpected json event Int"

/-- handler::Double. -/
def onDouble (st : HState) : Except String HState :=
  match st.stack with
  | .before_ignored_value :: _ => retire st
  | _ => .error "unexpected json event Double"

/-- handler::RawNumber: always rejected. -/
def onRawNumber (st : HState) : Except String HState :=
  .error "unexpected json event RawNumber"

/-- handler::String. -/
def onString (s : String) (st : HState) : Except String HState :=
  match st.stack with
  | .before_ignored_value :: _ => retire st
  | .before_string :: _ => retire { st with strV := some s }
  | _ => .error "unexpected json event String"

/-- handler::StartObject. -/
def onStartObject (st : HState) : Except String HState :=
  match st.stack with
  | .before_partition :: _ => .ok (pushState .in_partition st)
  | .before_key :: _ => .ok (pushState .in_key st)
  | .before_tombstone :: _ => .ok (pushState .in_tombstone { st with tombV := some ⟨none, none⟩ })
  | .before_static_columns :: _ => .ok (pushState .before_column_key { st with rowV := some [] })
  | .before_clustering_element :: _ =>
    .ok (pushState .in_clustering_element { st with rowV := some [] })
  | .before_marker :: _ => .ok (pushState .in_marker st)
  | .before_clustering_columns :: _ => .ok (pushState .before_column_key st)
  | .before_column :: _ => .ok (pushState .in_column st)
  | _ => .error "unexpected json event StartObject"

/-- handler::Key: records the key (the lastKey field of every continuing
result) and dispatches on the top state. -/
def onKey (sch : Schema) (k : String) (st : HState) : Except String HState :=
  match st.stack with
  | .in_partition :: _ =>
    if k = "key" then .ok (pushState .before_key { st with lastKey := k })
    else if k = "tombstone" then .ok (pushState .before_tombstone { st with lastKey := k })
    else if k = "static_row" then
      if st.psEmitted then .ok (pushState .before_static_columns { st with lastKey := k })
      else
        match finalizePartitionStart none { st with lastKey := k } with
        | .error e => .error e
        | .ok st1 => .ok (pushState .before_static_columns st1)
    else if k = "clustering_elements" then
      if st.psEmitted then .ok (pushState .before_clustering_elements { st with lastKey := k })
      else
        match finalizePartitionStart none { st with lastKey := k } with
        | .error e => .error e
        | .ok st1 => .ok (pushState .before_clustering_elements st1)
    else .error "unexpected json event Key in state in_partition"
  | .in_key :: rest =>
    if k = "value" ∨ (rest.get? 1 = some .in_partition ∧ k = "token") then
      .ok (pushState .before_ignored_value { st with lastKey := k })
    else if k = "raw" then .ok (pushState .before_string { st with lastKey := k })
    else .error "unexpected json event Key in state in_key"
  | .in_tombstone :: _ =>
    if k = "timestamp" then .ok (pushState .before_integer { st with lastKey := k })
    else if k = "deletion_time" then .ok (pushState .before_string { st with lastKey := k })
    else .error "unexpected json event Key in state in_tombstone"
  | .in_marker :: _ =>
    if k = "timestamp" then .ok (pushState .before_integer { st with lastKey := k })
    else if k = "ttl" ∨ k = "expiry" then .ok (pushState .before_string { st with lastKey := k })
    else .error "unexpected json event Key in state in_marker"
  | .in_clustering_element :: _ =>
    if k = "type" then .ok (pushState .before_string { st with lastKey := k })
    else .error "unexpected json event Key in state in_clustering_element"
  | .in_range_tombstone_change :: _ =>
    if k = "key" then .ok (pushState .before_key { st with lastKey := k })
    else if k = "weight" then .ok (pushState .before_integer { st with lastKey := k })
    else if k = "tombstone" then .ok (pushState .before_tombstone { st with lastKey := k })
    else .error "unexpected json event Key in state in_range_tombstone_change"
  | .in_clustering_row :: _ =>
    if k = "key" then .ok (pushState .before_key { st with lastKey := k })
    else if k = "marker" then .ok (pushState .before_marker { st with lastKey := k })
    else if k = "tombstone" then .ok (pushState .before_tombstone { st with lastKey := k })
    else if k = "shadowable_tombstone" then
      .ok (pushState .before_tombstone { st with lastKey := k, isShadowable := true })
    else if k = "columns" then
      .ok (pushState .before_clustering_columns { st with lastKey := k })
    else .error "unexpected json event Key in state in_clustering_row"
  | .before_column_key :: below :: _ =>
    (match sch.lookupCol k with
     | none => .error "failed to look-up column name"
     | some cdef =>
       if below = .before_static_columns ∧ cdef.kind ≠ .static_column then
         .error "cannot add column of this kind to static row"
       else if below = .before_clustering_columns ∧ cdef.kind ≠ .regular_column then
         .error "cannot add column of this kind to regular row"
       else if ¬cdef.isAtomic then
         .error "failed to initialize column: non-atomic columns are not supported yet"
       else
         .ok (pushState .before_column
           { st with lastKey := k, colV := some ⟨k, cdef, none, none, none, none⟩ }))
  | .in_column :: _ =>
    if k = "is_live" then .ok (pushState .before_bool { st with lastKey := k })
    else if k = "timestamp" then .ok (pushState .before_integer { st with lastKey := k })
    else if k = "ttl" ∨ k = "expiry" ∨ k = "value" ∨ k = "deletion_time" then
      .ok (pushState .before_string { st with lastKey := k })
    else .error "unexpected json event Key in state in_column"
  | _ => .error "unexpected json event Key"

/-- handler::EndObject. -/
def onEndObject (st : HState) : Except String HState :=
  match st.stack with
  | .in_partition :: _ => retire st
  | .in_key :: _ => retire st
  | .in_tombstone :: _ => retire st
  | .in_range_tombstone_change :: _ => retire st
  | .in_clustering_row :: _ => retire st
  | .before_column_key :: _ => retire st
  | .in_marker :: _ => retire st
  | .in_column :: _ => retire st
  | _ => .error "unexpected json event EndObject"

/-- handler::StartArray. -/
def onStartArray (st : HState) : Except String HState :=
  match st.stack with
  | .start :: _ => .ok (pushState .before_partition st)
  | .before_clustering_elements :: _ => .ok (pushState .before_clustering_element st)
  | _ => .error "unexpected json event StartArray"

/-- handler::EndArray. -/
def onEndArray (st : HState) : Except String HState :=
  match st.stack with
  | .before_clustering_element :: _ => retire st
  | .before_partition :: _ => retire st
  | _ => .error "unexpected json event EndArray"

def handleEvent (sch : Schema) (ev : JsonEvent) (st : HState) : Except String HState :=
  match ev with
  | .nullE => onNull st
  | .boolE b => onBool b st
  | .intE i => onInt i st
  | .doubleE => onDouble st
  | .rawNumberE => onRawNumber st
  | .strE s => onString s st
  | .startObjectE => onStartObject st
  | .keyE k => onKey sch k st
  | .endObjectE => onEndObject st
  | .startArrayE => onStartArray st
  | .endArrayE => onEndArray st

/-- The handler constructor pushes the start state; all scratch is clear. -/
def initState : HState :=
  { stack := [.start], lastKey := "", psEmitted := false, isShadowable := false,
    boolV := none, intV := none, strV := none, pkeyV := none, tombV := none,
    ckeyV := none, bwV := none, markerV := none, rowTombV := none, rowV := none,
    colV := none, ttlV := none, expiryV := none, emitted := [] }

/-- Runs the handler over an event list.  Returns the state reached together
with the error that stopped parsing, if any (on error rapidjson stops
driving the handler and the queue is aborted: the state reached so far,
including the fragments already emitted, is returned unchanged). -/
def runEvents (sch : Schema) : HState → List JsonEvent → HState × Option String
  | st, [] => (st, none)
  | st, ev :: evs =>
    match handleEvent sch ev st with
    | .ok st2 => runEvents sch st2 evs
    | .error e => (st, some e)

theorem runEvents_append (sch : Schema) (st : HState) (a b : List JsonEvent) :
    runEvents sch st (a ++ b) =
      match runEvents sch st a with
      | (st2, none) => runEvents sch st2 b
      | (st2, some e) => (st2, some e) := by
  induction a generalizing st with
  | nil => simp [runEvents]
  | cons ev evs ih =>
    simp only [List.cons_append, runEvents]
    cases handleEvent sch ev st with
    | ok st2 => exact ih st2
    | error e => rfl

/-! ## The state-stack shape invariant

Every reachable stack is a chain ending in the start state, where each state
sits directly on one of the states that can push it (including the two
retire-time pushes of in_clustering_row / in_range_tombstone_change on top
of in_clustering_element).  Chains are ranked, which bounds the stack depth
by 12. -/

def sits (a b : PState) : Bool :=
  match a, b with
  | .before_partition, .start => true
  | .in_partition, .before_partition => true
  | .before_key, .in_partition => true
  | .before_key, .in_range_tombstone_change => true
  | .before_key, .in_clustering_row => true
  | .in_key, .before_key => true
  | .before_tombstone, .in_partition => true
  | .before_tombstone, .in_range_tombstone_change => true
  | .before_tombstone, .in_clustering_row => true
  | .in_tombstone, .before_tombstone => true
  | .before_static_columns, .in_partition => true
  | .before_clustering_elements, .in_partition => true
  | .before_clustering_element, .before_clustering_elements => true
  | .in_clustering_element, .before_clustering_element => true
  | .in_clustering_row, .in_clustering_element => true
  | .in_range_tombstone_change, .in_clustering_element => true
  | .before_marker, .in_clustering_row => true
  | .in_marker, .before_marker => true
  | .before_clustering_columns, .in_clustering_row => true
  | .before_column_key, .before_static_columns => true
  | .before_column_key, .before_clustering_columns => true
  | .before_column, .before_column_key => true
  | .in_column, .before_column => true
  | .before_ignored_value, .in_key => true
  | .before_string, .in_key => true
  | .before_string, .in_tombstone => true
  | .before_string, .in_marker => true
  | .before_string, .in_clustering_element => true
  | .before_string, .in_column => true
  | .before_integer, .in_tombstone => true
  | .before_integer, .in_marker => true
  | .before_integer, .in_range_tombstone_change => true
  | .before_integer, .in_column => true
  | .before_bool, .in_column => true
  | _, _ => false

def chainOK : List PState → Bool
  | [] => false
  | [s] => s = .start
  | a :: b :: r => sits a b && chainOK (b :: r)

def stateRank : PState → Nat
  | .start => 0
  | .before_partition => 1
  | .in_partition => 2
  | .before_static_columns => 3
  | .before_clustering_elements => 3
  | .before_clustering_element => 4
  | .in_clustering_element => 5
  | .in_clustering_row => 6
  | .in_range_tombstone_change => 6
  | .before_key => 7
  | .before_tombstone => 7
  | .before_marker => 7
  | .before_clustering_columns => 7
  | .in_key => 8
  | .in_tombstone => 8
  | .in_marker => 8
  | .before_column_key => 8
  | .before_ignored_value => 9
  | .before_column => 9
  | .in_column => 10
  | .before_bool => 11
  | .before_integer => 11
  | .before_string => 11

theorem sits_rank : ∀ a b, sits a b = true → stateRank b < stateRank a := by decide

theorem stateRank_le : ∀ s, stateRank s ≤ 11 := by decide

theorem chainOK_cons_cons (x y : PState) (r : List PState) :
    chainOK (x :: y :: r) = true ↔ sits x y = true ∧ chainOK (y :: r) = true := by
  simp [chainOK]

theorem chainOK_length : ∀ (l : List PState), chainOK l = true →
    l.length ≤ stateRank (l.headD .start) + 1 := by
  intro l
  induction l with
  | nil => intro h; simp [chainOK] at h
  | cons a r ih =>
    intro h
    cases r with
    | nil => simp
    | cons b rr =>
      obtain ⟨hs, h2⟩ := (chainOK_cons_cons a b rr).mp h
      have := ih h2
      simp only [List.headD] at this ⊢
      have hr := sits_rank a b hs
      simp only [List.length_cons] at this ⊢
      omega

theorem chainOK_length_le_12 (l : List PState) (h : chainOK l = true) : l.length ≤ 12 := by
  have h1 := chainOK_length l h
  have h2 := stateRank_le (l.headD .start)
  omega

theorem sits_start_before_partition : ∀ x, sits x .start = true → x = .before_partition := by
  decide

theorem chain_pop1 (x : PState) (r : List PState) (h : chainOK (x :: r) = true)
    (hx : x ≠ .start) : chainOK r = true := by
  cases r with
  | nil =>
    exfalso
    have : (x = PState.start : Bool) = true := h
    exact hx (by simpa using this)
  | cons b rr => exact ((chainOK_cons_cons x b rr).mp h).2

theorem chain_pop2 (x y : PState) (r : List PState) (h : chainOK (x :: y :: r) = true)
    (hx : x ≠ .before_partition) : chainOK r = true := by
  obtain ⟨hs, h2⟩ := (chainOK_cons_cons x y r).mp h
  have hy : y ≠ .start := fun he => hx (sits_start_before_partition x (he ▸ hs))
  exact chain_pop1 y r h2 hy

theorem getTombstone_stack (s t : HState) (tomb : Option Tombstone)
    (h : getTombstone s = .ok (t, tomb)) : t.stack = s.stack := by
  unfold getTombstone at h
  repeat' split at h
  all_goals first
    | exact (Except.noConfusion h)
    | (cases h; rfl)

theorem finalizePartitionStart_stack (tomb : Option Tombstone) (s t : HState)
    (h : finalizePartitionStart tomb s = .ok t) : t.stack = s.stack := by
  unfold finalizePartitionStart at h
  repeat' split at h
  all_goals first
    | exact (Except.noConfusion h)
    | (cases h; rfl)

theorem finalizeStaticRow_stack (s t : HState) (h : finalizeStaticRow s = .ok t) :
    t.stack = s.stack := by
  unfold finalizeStaticRow at h
  repeat' split at h
  all_goals first
    | exact (Except.noConfusion h)
    | (cases h; rfl)

theorem finalizeRtc_stack (s t : HState) (h : finalizeRtc s = .ok t) : t.stack = s.stack := by
  unfold finalizeRtc at h
  repeat' split at h
  all_goals first
    | exact (Except.noConfusion h)
    | (cases h; rfl)

theorem finalizeRowMarker_stack (s t : HState) (h : finalizeRowMarker s = .ok t) :
    t.stack = s.stack := by
  unfold finalizeRowMarker at h
  repeat' split at h
  all_goals first
    | exact (Except.noConfusion h)
    | (cases h; rfl)

theorem finalizeColumn_stack (s t : HState) (h : finalizeColumn s = .ok t) :
    t.stack = s.stack := by
  unfold finalizeColumn at h
  repeat' split at h
  all_goals first
    | exact (Except.noConfusion h)
    | (cases h; rfl)

theorem finalizeClusteringRow_stack (s t : HState) (h : finalizeClusteringRow s = .ok t) :
    t.stack = s.stack := by
  unfold finalizeClusteringRow at h
  repeat' split at h
  all_goals first
    | exact (Except.noConfusion h)
    | (cases h; rfl)

set_option maxHeartbeats 1000000

theorem retire_chain (st st2 : HState) (h : retire st = .ok st2)
    (hc : chainOK st.stack = true) : chainOK st2.stack = true := by
  unfold retire at h
  split at h
  next heq =>
    cases h
    exact chain_pop1 _ _ (heq ▸ hc) (by decide)
  next heq =>
    cases h
    exact chain_pop1 _ _ (heq ▸ hc) (by decide)
  next y rest heq =>
    cases h
    exact chain_pop2 _ y _ (heq ▸ hc) (by decide)
  next y rest heq =>
    repeat' split at h
    all_goals first
      | exact (Except.noConfusion h)
      | (cases h; exact chain_pop2 _ y _ (heq ▸ hc) (by decide))
      | (have hst : st2.stack = _ := finalizePartitionStart_stack _ _ _ h
         rw [hst]
         exact chain_pop2 _ y _ (heq ▸ hc) (by decide))
  next y rest heq =>
    have hst : st2.stack = _ := finalizeRowMarker_stack _ _ h
    rw [hst]
    exact chain_pop2 _ y _ (heq ▸ hc) (by decide)
  next y rest heq =>
    have hst : st2.stack = _ := finalizeColumn_stack _ _ h
    rw [hst]
    exact chain_pop2 _ y _ (heq ▸ hc) (by decide)
  next below rest heq =>
    split at h
    · have hst : st2.stack = _ := finalizeStaticRow_stack _ _ h
      rw [hst]
      exact chain_pop2 _ below _ (heq ▸ hc) (by decide)
    · cases h
      exact chain_pop2 _ below _ (heq ▸ hc) (by decide)
  next y rest heq =>
    cases h
    exact chain_pop2 _ y _ (heq ▸ hc) (by decide)
  next y rest heq =>
    have hst : st2.stack = _ := finalizeRtc_stack _ _ h
    rw [hst]
    exact chain_pop2 _ y _ (heq ▸ hc) (by decide)
  next y rest heq =>
    have hst : st2.stack = _ := finalizeClusteringRow_stack _ _ h
    rw [hst]
    exact chain_pop2 _ y _ (heq ▸ hc) (by decide)
  next heq =>
    cases h
    exact chain_pop1 _ _ (heq ▸ hc) (by decide)
  next heq =>
    repeat' split at h
    all_goals first
      | exact (Except.noConfusion h)
      | (cases h; exact chain_pop1 _ _ (heq ▸ hc) (by decide))
  next heq =>
    repeat' split at h
    all_goals first
      | exact (Except.noConfusion h)
      | (cases h; exact chain_pop1 _ _ (heq ▸ hc) (by decide))
  next heq =>
    repeat' split at h
    all_goals first
      | exact (Except.noConfusion h)
      | (cases h; exact chain_pop1 _ _ (heq ▸ hc) (by decide))
      | (cases h
         refine (chainOK_cons_cons _ _ _).mpr ⟨by decide, ?_⟩
         exact chain_pop1 _ _ (heq ▸ hc) (by decide))
  all_goals exact (Except.noConfusion h)


theorem chain_push (s : PState) (st : HState) (h0 : PState) (rest : List PState)
    (heq : st.stack = h0 :: rest) (hc : chainOK st.stack = true) (hs : sits s h0 = true) :
    chainOK (s :: st.stack) = true := by
  rw [heq] at hc ⊢
  exact (chainOK_cons_cons s h0 rest).mpr ⟨hs, hc⟩

theorem handleEvent_chain (sch : Schema) (ev : JsonEvent) (st st2 : HState)
    (hc : chainOK st.stack = true) (h : handleEvent sch ev st = .ok st2) :
    chainOK st2.stack = true := by
  cases ev
  case nullE =>
    simp only [handleEvent] at h
    unfold onNull at h
    split at h
    · exact retire_chain _ _ h hc
    · exact (Except.noConfusion h)
  case boolE b =>
    simp only [handleEvent] at h
    unfold onBool at h
    split at h
    · exact retire_chain _ _ h hc
    · exact (Except.noConfusion h)
  case intE i =>
    simp only [handleEvent] at h
    unfold onInt at h
    split at h
    · exact retire_chain _ _ h hc
    · exact retire_chain _ _ h hc
    · exact (Except.noConfusion h)
  case doubleE =>
    simp only [handleEvent] at h
    unfold onDouble at h
    split at h
    · exact retire_chain _ _ h hc
    · exact (Except.noConfusion h)
  case rawNumberE =>
    simp only [handleEvent] at h
    exact (Except.noConfusion h)
  case strE s0 =>
    simp only [handleEvent] at h
    unfold onString at h
    split at h
    · exact retire_chain _ _ h hc
    · exact retire_chain _ _ h hc
    · exact (Except.noConfusion h)
  case startObjectE =>
    simp only [handleEvent] at h
    unfold onStartObject at h
    split at h
    all_goals first
      | exact (Except.noConfusion h)
      | (cases h; exact chain_push _ _ _ _ (by assumption) hc (by decide))
  case keyE k =>
    simp only [handleEvent] at h
    unfold onKey at h
    split at h
    all_goals repeat' split at h
    all_goals first
      | exact (Except.noConfusion h)
      | (cases h; exact chain_push _ _ _ _ (by assumption) hc (by decide))
      | (cases h
         rename_i st1 hfin
         have hst := finalizePartitionStart_stack _ _ _ hfin
         show chainOK (_ :: st1.stack) = true
         rw [hst]
         exact chain_push _ _ _ _ (by assumption) hc (by decide))
  case endObjectE =>
    simp only [handleEvent] at h
    unfold onEndObject at h
    split at h
    all_goals first
      | exact (Except.noConfusion h)
      | exact retire_chain _ _ h hc
  case startArrayE =>
    simp only [handleEvent] at h
    unfold onStartArray at h
    split at h
    all_goals first
      | exact (Except.noConfusion h)
      | (cases h; exact chain_push _ _ _ _ (by assumption) hc (by decide))
  case endArrayE =>
    simp only [handleEvent] at h
    unfold onEndArray at h
    split at h
    all_goals first
      | exact (Except.noConfusion h)
      | exact retire_chain _ _ h hc


theorem runEvents_chain (sch : Schema) (evs : List JsonEvent) (st : HState)
    (hc : chainOK st.stack = true) : chainOK ((runEvents sch st evs).1).stack = true := by
  induction evs generalizing st with
  | nil => exact hc
  | cons ev evs ih =>
    unfold runEvents
    cases hev : handleEvent sch ev st with
    | ok st2 => exact ih st2 (handleEvent_chain sch ev st st2 hc hev)
    | error e => exact hc

theorem initState_chain : chainOK initState.stack = true := by decide


/-- The canonical between-scalars handler state: given stack, last key,
partition-start flag and emitted queue, all scratch clear. -/
def midState (stk : List PState) (k : String) (ps : Bool) (E : List (Option Fragment)) : HState :=
  { stack := stk, lastKey := k, psEmitted := ps, isShadowable := false,
    boolV := none, intV := none, strV := none, pkeyV := none, tombV := none,
    ckeyV := none, bwV := none, markerV := none, rowTombV := none, rowV := none,
    colV := none, ttlV := none, expiryV := none, emitted := E }

theorem tdiv_thousand (t : Int) : (t * 1000).tdiv 1000 = t := by
  rw [Int.mul_tdiv_cancel]
  norm_num

theorem timestamp_round (t : Int) : timestamp_from_string (gcTimeToString t) = some (t * 1000) := by
  unfold timestamp_from_string gcTimeToString
  exact parseIntStr_intRepr (t * 1000)

theorem parseTtl_round (n : Nat) : parseTtlStr (durToString n) = some n := by
  unfold parseTtlStr durToString
  have hdata : (natRepr n ++ "s").data = natReprChars n ++ [Char.ofNat 115] := by
    rw [String.data_append]
    rfl
  rw [hdata, List.getLast?_concat]
  simp [List.dropLast_concat, parseNatChars_natReprChars]

theorem run_pkeyObj (sch : Schema) (st : HState) (S : List PState) (key : Bytes)
    (evs : List JsonEvent) (hstk : st.stack = .in_partition :: S)
    (hwf : ∀ b ∈ key, b < 256) :
    runEvents sch st (.keyE "key" :: (dumpPartitionKeyObj key ++ evs)) =
      runEvents sch { st with lastKey := "value", pkeyV := some key, strV := none } evs := by
  simp [dumpPartitionKeyObj, runEvents, handleEvent, onKey, onString, onStartObject, onEndObject,
    retire, pushState, midState, List.get?, hstk, fromHex_toHex key hwf]

theorem run_partTomb (sch : Schema) (st : HState) (S : List PState) (key : Bytes)
    (t : Tombstone) (evs : List JsonEvent) (hstk : st.stack = .in_partition :: S)
    (hpk : st.pkeyV = some key) :
    runEvents sch st (.keyE "tombstone" :: (dumpTombstone (some t) ++ evs)) =
      runEvents sch
        { st with lastKey := "deletion_time", isShadowable := false, tombV := none,
                  intV := none, strV := none, psEmitted := true, pkeyV := none,
                  emitted := st.emitted ++ [some (.partitionStart key (some t))] } evs := by
  simp [dumpTombstone, runEvents, handleEvent, onKey, onString, onStartObject, onEndObject,
    onInt, retire, pushState, emitFrag, getTombstone, finalizePartitionStart, hstk, hpk,
    timestamp_round, tdiv_thousand]

theorem run_staticKey (sch : Schema) (st : HState) (S : List PState) (evs : List JsonEvent)
    (hstk : st.stack = .in_partition :: S) (hps : st.psEmitted = true) :
    runEvents sch st (.keyE "static_row" :: evs) =
      runEvents sch
        { st with lastKey := "static_row", stack := .before_static_columns :: .in_partition :: S }
        evs := by
  simp [runEvents, handleEvent, onKey, pushState, hstk, hps]

theorem run_staticKeyFresh (sch : Schema) (st : HState) (S : List PState) (key : Bytes)
    (evs : List JsonEvent) (hstk : st.stack = .in_partition :: S) (hps : st.psEmitted = false)
    (hpk : st.pkeyV = some key) :
    runEvents sch st (.keyE "static_row" :: evs) =
      runEvents sch
        { st with lastKey := "static_row", psEmitted := true, pkeyV := none,
                  stack := .before_static_columns :: .in_partition :: S,
                  emitted := st.emitted ++ [some (.partitionStart key none)] } evs := by
  simp [runEvents, handleEvent, onKey, pushState, emitFrag, finalizePartitionStart, hstk, hps, hpk]

theorem run_celemsKey (sch : Schema) (st : HState) (S : List PState) (evs : List JsonEvent)
    (hstk : st.stack = .in_partition :: S) (hps : st.psEmitted = true) :
    runEvents sch st (.keyE "clustering_elements" :: evs) =
      runEvents sch
        { st with lastKey := "clustering_elements",
                  stack := .before_clustering_elements :: .in_partition :: S } evs := by
  simp [runEvents, handleEvent, onKey, pushState, hstk, hps]

theorem run_celemsKeyFresh (sch : Schema) (st : HState) (S : List PState) (key : Bytes)
    (evs : List JsonEvent) (hstk : st.stack = .in_partition :: S) (hps : st.psEmitted = false)
    (hpk : st.pkeyV = some key) :
    runEvents sch st (.keyE "clustering_elements" :: evs) =
      runEvents sch
        { st with lastKey := "clustering_elements", psEmitted := true, pkeyV := none,
                  stack := .before_clustering_elements :: .in_partition :: S,
                  emitted := st.emitted ++ [some (.partitionStart key none)] } evs := by
  simp [runEvents, handleEvent, onKey, pushState, emitFrag, finalizePartitionStart, hstk, hps, hpk]

theorem run_ckeyObj_crow (sch : Schema) (st : HState) (R : List PState) (ck : Bytes)
    (evs : List JsonEvent) (hstk : st.stack = .in_clustering_row :: R)
    (hwf : ∀ b ∈ ck, b < 256) :
    runEvents sch st (.keyE "key" :: (dumpKeyObj ck ++ evs)) =
      runEvents sch { st with lastKey := "value", ckeyV := some ck, strV := none } evs := by
  simp [dumpKeyObj, runEvents, handleEvent, onKey, onString, onStartObject, onEndObject,
    retire, pushState, List.get?, hstk, fromHex_toHex ck hwf]

theorem run_ckeyObj_rtc (sch : Schema) (st : HState) (R : List PState) (ck : Bytes)
    (evs : List JsonEvent) (hstk : st.stack = .in_range_tombstone_change :: R)
    (hwf : ∀ b ∈ ck, b < 256) :
    runEvents sch st (.keyE "key" :: (dumpKeyObj ck ++ evs)) =
      runEvents sch { st with lastKey := "value", ckeyV := some ck, strV := none } evs := by
  simp [dumpKeyObj, runEvents, handleEvent, onKey, onString, onStartObject, onEndObject,
    retire, pushState, List.get?, hstk, fromHex_toHex ck hwf]

/-- The lastKey value after a dumped tombstone object. -/
def tombLastKey (k0 : String) : Option Tombstone → String
  | some _ => "deletion_time"
  | none => k0

theorem run_crowTomb (sch : Schema) (st : HState) (R : List PState) (t : Option Tombstone)
    (evs : List JsonEvent) (hstk : st.stack = .in_clustering_row :: R)
    (hsh : st.isShadowable = false) (hint : st.intV = none) (hstr : st.strV = none) :
    runEvents sch st (.keyE "tombstone" :: (dumpTombstone t ++ evs)) =
      runEvents sch
        { st with lastKey := tombLastKey "tombstone" t, isShadowable := false, tombV := none,
                  intV := none, strV := none, rowTombV := some (RowTombstone.ofTomb t) } evs := by
  cases t with
  | none =>
    simp [dumpTombstone, tombLastKey, runEvents, handleEvent, onKey, onString, onStartObject,
      onEndObject, onInt, retire, pushState, getTombstone, hstk, hsh, hint, hstr]
  | some t0 =>
    simp [dumpTombstone, tombLastKey, runEvents, handleEvent, onKey, onString, onStartObject,
      onEndObject, onInt, retire, pushState, getTombstone, hstk, hsh, hint, hstr,
      timestamp_round, tdiv_thousand]

theorem run_crowShadowableTomb (sch : Schema) (st : HState) (R : List PState)
    (rt : RowTombstone) (t : Option Tombstone) (evs : List JsonEvent)
    (hstk : st.stack = .in_clustering_row :: R) (hrt : st.rowTombV = some rt)
    (hint : st.intV = none) (hstr : st.strV = none) :
    runEvents sch st (.keyE "shadowable_tombstone" :: (dumpTombstone t ++ evs)) =
      runEvents sch
        { st with lastKey := tombLastKey "shadowable_tombstone" t, isShadowable := false,
                  tombV := none, intV := none, strV := none,
                  rowTombV := some (rt.applyShadowable t) } evs := by
  cases t with
  | none =>
    simp [dumpTombstone, tombLastKey, runEvents, handleEvent, onKey, onString, onStartObject,
      onEndObject, onInt, retire, pushState, getTombstone, hstk, hrt, hint, hstr]
  | some t0 =>
    simp [dumpTombstone, tombLastKey, runEvents, handleEvent, onKey, onString, onStartObject,
      onEndObject, onInt, retire, pushState, getTombstone, hstk, hrt, hint, hstr,
      timestamp_round, tdiv_thousand]

theorem run_rtcTomb (sch : Schema) (st : HState) (R : List PState) (t : Option Tombstone)
    (evs : List JsonEvent) (hstk : st.stack = .in_range_tombstone_change :: R)
    (hint : st.intV = none) (hstr : st.strV = none) :
    runEvents sch st (.keyE "tombstone" :: (dumpTombstone t ++ evs)) =
      runEvents sch
        { st with lastKey := tombLastKey "tombstone" t, isShadowable := false, tombV := none,
                  intV := none, strV := none, rowTombV := some (RowTombstone.ofTomb t) } evs := by
  cases t with
  | none =>
    simp [dumpTombstone, tombLastKey, runEvents, handleEvent, onKey, onString, onStartObject,
      onEndObject, onInt, retire, pushState, getTombstone, hstk, hint, hstr]
  | some t0 =>
    simp [dumpTombstone, tombLastKey, runEvents, handleEvent, onKey, onString, onStartObject,
      onEndObject, onInt, retire, pushState, getTombstone, hstk, hint, hstr,
      timestamp_round, tdiv_thousand]

/-- The lastKey value after a dumped row marker object. -/
def markerLastKey (m : RowMarker) : String :=
  match m.ttlExp with
  | some _ => "expiry"
  | none => "timestamp"

theorem run_marker (sch : Schema) (st : HState) (R : List PState) (m : RowMarker)
    (evs : List JsonEvent) (hstk : st.stack = .in_clustering_row :: R)
    (httl : st.ttlV = none) (hexp : st.expiryV = none) (hstr : st.strV = none) :
    runEvents sch st (.keyE "marker" :: (dumpMarker m ++ evs)) =
      runEvents sch
        { st with lastKey := markerLastKey m, markerV := some m, intV := none, strV := none,
                  ttlV := none, expiryV := none } evs := by
  rcases m with ⟨ts, te⟩
  cases te with
  | none =>
    simp [dumpMarker, markerLastKey, runEvents, handleEvent, onKey, onString, onStartObject,
      onEndObject, onInt, retire, pushState, finalizeRowMarker, hstk, httl, hexp, hstr]
  | some p =>
    rcases p with ⟨ttl, exp⟩
    simp [dumpMarker, markerLastKey, runEvents, handleEvent, onKey, onString, onStartObject,
      onEndObject, onInt, retire, pushState, finalizeRowMarker, hstk, httl, hexp, hstr,
      timestamp_round, tdiv_thousand, parseTtl_round]


/-- The lastKey value after a dumped cell object. -/
def cellLastKey : Cell → String
  | .live _ _ _ => "value"
  | .dead _ _ => "deletion_time"

/-- The lastKey value after a dumped columns object. -/
def cellsLastKey (k0 : String) (cells : Row) : String :=
  cells.foldl (fun _ nc => cellLastKey nc.2) k0

/-- The row accumulated by the parser over a dumped columns object. -/
def rowFold (r0 : Row) (cells : Row) : Row :=
  cells.foldl (fun r nc => rowApply r nc.1 nc.2) r0

theorem run_cellKey (sch : Schema) (st : HState) (below : PState) (R : List PState)
    (n : String) (cdef : ColDef) (R0 : Row) (c : Cell) (evs : List JsonEvent)
    (hstk : st.stack = .before_column_key :: below :: R)
    (hlook : sch.lookupCol n = some cdef)
    (hok1 : ¬(below = .before_static_columns ∧ cdef.kind ≠ .static_column))
    (hok2 : ¬(below = .before_clustering_columns ∧ cdef.kind ≠ .regular_column))
    (hatom : cdef.isAtomic = true)
    (hrow : st.rowV = some R0) (httl : st.ttlV = none) (hexp : st.expiryV = none) :
    runEvents sch st (.keyE n :: (dumpCell c ++ evs)) =
      runEvents sch
        { st with lastKey := cellLastKey c, rowV := some (rowApply R0 n c), colV := none,
                  boolV := none, intV := none, strV := none, ttlV := none, expiryV := none }
        evs := by
  cases c with
  | live ts v te =>
    cases te with
    | none =>
      simp [dumpCell, cellLastKey, runEvents, handleEvent, onKey, onString, onStartObject,
        onEndObject, onInt, onBool, retire, pushState, finalizeColumn, hstk, hlook, hok1, hok2,
        hatom, hrow, httl, hexp]
    | some p =>
      rcases p with ⟨ttl, exp⟩
      simp [dumpCell, cellLastKey, runEvents, handleEvent, onKey, onString, onStartObject,
        onEndObject, onInt, onBool, retire, pushState, finalizeColumn, hstk, hlook, hok1, hok2,
        hatom, hrow, httl, hexp, timestamp_round, tdiv_thousand, parseTtl_round]
  | dead ts dt =>
    simp [dumpCell, cellLastKey, runEvents, handleEvent, onKey, onString, onStartObject,
      onEndObject, onInt, onBool, retire, pushState, finalizeColumn, hstk, hlook, hok1, hok2,
      hatom, hrow, httl, hexp, timestamp_round, tdiv_thousand]

theorem run_cells (sch : Schema) (below : PState) (cells : Row) :
    ∀ (st : HState) (R : List PState) (R0 : Row) (evs : List JsonEvent),
    st.stack = .before_column_key :: below :: R →
    st.rowV = some R0 → st.colV = none → st.boolV = none → st.intV = none → st.strV = none →
    st.ttlV = none → st.expiryV = none →
    (∀ nc ∈ cells, ∃ cdef, sch.lookupCol nc.1 = some cdef ∧ cdef.isAtomic = true ∧
      ¬(below = .before_static_columns ∧ cdef.kind ≠ .static_column) ∧
      ¬(below = .before_clustering_columns ∧ cdef.kind ≠ .regular_column)) →
    runEvents sch st (evConcat (fun nc => .keyE nc.1 :: dumpCell nc.2) cells ++ evs) =
      runEvents sch
        { st with lastKey := cellsLastKey st.lastKey cells, rowV := some (rowFold R0 cells),
                  colV := none, boolV := none, intV := none, strV := none, ttlV := none,
                  expiryV := none } evs := by
  induction cells with
  | nil =>
    intro st R R0 evs hstk hrow hcol hbool hint hstr httl hexp _
    show runEvents sch st ([] ++ evs) = _
    rw [List.nil_append]
    congr 1
    rcases st with ⟨stk, lk, ps, ish, bv, iv, sv, pk, tv, ck, bw, mk, rt, rv, cv, tt, ex, em⟩
    simp_all [cellsLastKey, rowFold]
  | cons nc rest ih =>
    intro st R R0 evs hstk hrow hcol hbool hint hstr httl hexp hcells
    obtain ⟨cdef, hlook, hatom, hok1, hok2⟩ := hcells nc (by simp)
    show runEvents sch st
        (((.keyE nc.1 :: dumpCell nc.2) ++
          evConcat (fun nc => .keyE nc.1 :: dumpCell nc.2) rest) ++ evs) = _
    rw [List.append_assoc, List.cons_append]
    rw [run_cellKey sch st below R nc.1 cdef R0 nc.2 _ hstk hlook hok1 hok2 hatom hrow httl hexp]
    rw [ih { st with
               lastKey := cellLastKey nc.2, rowV := some (rowApply R0 nc.1 nc.2), colV := none,
               boolV := none, intV := none, strV := none, ttlV := none, expiryV := none }
          R (rowApply R0 nc.1 nc.2) evs hstk rfl rfl rfl rfl rfl rfl rfl
          (fun x hx => hcells x (by simp [hx]))]
    rfl


theorem run_keyColumns (sch : Schema) (st : HState) (R : List PState) (evs : List JsonEvent)
    (hstk : st.stack = .in_clustering_row :: R) :
    runEvents sch st (.keyE "columns" :: evs) =
      runEvents sch
        { st with lastKey := "columns", stack := .before_clustering_columns :: st.stack } evs := by
  simp [runEvents, handleEvent, onKey, pushState, hstk]

theorem run_startObjCC (sch : Schema) (st : HState) (R : List PState) (evs : List JsonEvent)
    (hstk : st.stack = .before_clustering_columns :: R) :
    runEvents sch st (.startObjectE :: evs) =
      runEvents sch { st with stack := .before_column_key :: st.stack } evs := by
  simp [runEvents, handleEvent, onStartObject, pushState, hstk]

theorem run_endObjCC (sch : Schema) (st : HState) (R : List PState) (evs : List JsonEvent)
    (hstk : st.stack = .before_column_key :: .before_clustering_columns :: R) :
    runEvents sch st (.endObjectE :: evs) =
      runEvents sch { st with stack := R } evs := by
  simp [runEvents, handleEvent, onEndObject, retire, hstk]

theorem run_startObjSC (sch : Schema) (st : HState) (R : List PState) (evs : List JsonEvent)
    (hstk : st.stack = .before_static_columns :: R) :
    runEvents sch st (.startObjectE :: evs) =
      runEvents sch { st with rowV := some [], stack := .before_column_key :: st.stack } evs := by
  simp [runEvents, handleEvent, onStartObject, pushState, hstk]

theorem run_endObjSC (sch : Schema) (st : HState) (R : List PState) (Rw : Row)
    (evs : List JsonEvent)
    (hstk : st.stack = .before_column_key :: .before_static_columns :: R)
    (hrow : st.rowV = some Rw) :
    runEvents sch st (.endObjectE :: evs) =
      runEvents sch
        { st with stack := R, rowV := none,
                  emitted := st.emitted ++ [some (.staticRow Rw)] } evs := by
  simp [runEvents, handleEvent, onEndObject, retire, finalizeStaticRow, emitFrag, hstk, hrow]

theorem run_elemStart (sch : Schema) (st : HState) (R : List PState) (evs : List JsonEvent)
    (hstk : st.stack = .before_clustering_element :: R) :
    runEvents sch st (.startObjectE :: evs) =
      runEvents sch { st with rowV := some [], stack := .in_clustering_element :: st.stack }
        evs := by
  simp [runEvents, handleEvent, onStartObject, pushState, hstk]

theorem run_elemTypeCrow (sch : Schema) (st : HState) (R : List PState) (evs : List JsonEvent)
    (hstk : st.stack = .in_clustering_element :: R) :
    runEvents sch st (.keyE "type" :: .strE "clustering-row" :: evs) =
      runEvents sch
        { st with lastKey := "type", strV := none, stack := .in_clustering_row :: st.stack }
        evs := by
  simp [runEvents, handleEvent, onKey, onString, retire, pushState, hstk]

theorem run_elemTypeRtc (sch : Schema) (st : HState) (R : List PState) (evs : List JsonEvent)
    (hstk : st.stack = .in_clustering_element :: R) :
    runEvents sch st (.keyE "type" :: .strE "range-tombstone-change" :: evs) =
      runEvents sch
        { st with lastKey := "type", strV := none,
                  stack := .in_range_tombstone_change :: st.stack } evs := by
  simp [runEvents, handleEvent, onKey, onString, retire, pushState, hstk]

theorem run_crowEnd (sch : Schema) (st : HState) (R : List PState) (ck : Bytes) (Rw : Row)
    (evs : List JsonEvent)
    (hstk : st.stack = .in_clustering_row :: .in_clustering_element :: R)
    (hck : st.ckeyV = some ck) (hrow : st.rowV = some Rw) :
    runEvents sch st (.endObjectE :: evs) =
      runEvents sch
        { st with stack := R, ckeyV := none, rowV := none, rowTombV := none, markerV := none,
                  emitted := st.emitted ++
                    [some (.clusteringRow ck (st.rowTombV.getD RowTombstone.empty) st.markerV Rw)] }
        evs := by
  simp [runEvents, handleEvent, onEndObject, retire, finalizeClusteringRow, emitFrag, hstk, hck,
    hrow]

theorem run_rtcWeight (sch : Schema) (st : HState) (R : List PState) (w : BoundWeight)
    (evs : List JsonEvent) (hstk : st.stack = .in_range_tombstone_change :: R) :
    runEvents sch st (.keyE "weight" :: .intE w.toInt :: evs) =
      runEvents sch { st with lastKey := "weight", intV := none, bwV := some w } evs := by
  cases w
  all_goals
    simp [runEvents, handleEvent, onKey, onInt, retire, pushState, BoundWeight.toInt, hstk]

theorem run_rtcEnd (sch : Schema) (st : HState) (R : List PState) (w : BoundWeight)
    (rt : RowTombstone) (evs : List JsonEvent)
    (hstk : st.stack = .in_range_tombstone_change :: .in_clustering_element :: R)
    (hbw : st.bwV = some w) (hw : w ≠ .equal) (hrt : st.rowTombV = some rt) :
    runEvents sch st (.endObjectE :: evs) =
      runEvents sch
        { st with stack := R, ckeyV := none, bwV := none, rowTombV := none,
                  emitted := st.emitted ++
                    [some (.rangeTombstoneChange (st.ckeyV.getD []) w rt.tomb)] } evs := by
  simp [runEvents, handleEvent, onEndObject, retire, finalizeRtc, emitFrag, hstk, hbw, hw, hrt]

theorem run_partObjStart (sch : Schema) (st : HState) (R : List PState) (evs : List JsonEvent)
    (hstk : st.stack = .before_partition :: R) :
    runEvents sch st (.startObjectE :: evs) =
      runEvents sch { st with stack := .in_partition :: st.stack } evs := by
  simp [runEvents, handleEvent, onStartObject, pushState, hstk]

theorem run_partObjEnd (sch : Schema) (st : HState) (R : List PState) (evs : List JsonEvent)
    (hstk : st.stack = .in_partition :: R) :
    runEvents sch st (.endObjectE :: evs) =
      runEvents sch
        { st with stack := R, psEmitted := false,
                  emitted := st.emitted ++ [some .partitionEnd] } evs := by
  simp [runEvents, handleEvent, onEndObject, retire, finalizePartition, emitFrag, hstk]

theorem run_celemsArrStart (sch : Schema) (st : HState) (R : List PState) (evs : List JsonEvent)
    (hstk : st.stack = .before_clustering_elements :: R) :
    runEvents sch st (.startArrayE :: evs) =
      runEvents sch { st with stack := .before_clustering_element :: st.stack } evs := by
  simp [runEvents, handleEvent, onStartArray, pushState, hstk]

theorem run_celemsArrEnd (sch : Schema) (st : HState) (x : PState) (R : List PState)
    (evs : List JsonEvent) (hstk : st.stack = .before_clustering_element :: x :: R) :
    runEvents sch st (.endArrayE :: evs) =
      runEvents sch { st with stack := R } evs := by
  simp [runEvents, handleEvent, onEndArray, retire, hstk]

theorem run_topArrStart (sch : Schema) (st : HState) (R : List PState) (evs : List JsonEvent)
    (hstk : st.stack = .start :: R) :
    runEvents sch st (.startArrayE :: evs) =
      runEvents sch { st with stack := .before_partition :: st.stack } evs := by
  simp [runEvents, handleEvent, onStartArray, pushState, hstk]

theorem run_topArrEnd (sch : Schema) (st : HState) (R : List PState) (evs : List JsonEvent)
    (hstk : st.stack = .before_partition :: R) :
    runEvents sch st (.endArrayE :: evs) =
      runEvents sch { st with stack := R, emitted := st.emitted ++ [none] } evs := by
  simp [runEvents, handleEvent, onEndArray, retire, hstk]


theorem run_columns (sch : Schema) (st : HState) (R : List PState) (cells R0 : Row)
    (evs : List JsonEvent)
    (hstk : st.stack = .in_clustering_row :: R)
    (hrow : st.rowV = some R0) (hcol : st.colV = none) (hbool : st.boolV = none)
    (hint : st.intV = none) (hstr : st.strV = none) (httl : st.ttlV = none)
    (hexp : st.expiryV = none)
    (hcells : ∀ nc ∈ cells, ∃ cdef, sch.lookupCol nc.1 = some cdef ∧ cdef.isAtomic = true ∧
      cdef.kind = .regular_column) :
    runEvents sch st (.keyE "columns" :: (dumpRow cells ++ evs)) =
      runEvents sch
        { st with lastKey := cellsLastKey "columns" cells, rowV := some (rowFold R0 cells),
                  colV := none, boolV := none, intV := none, strV := none, ttlV := none,
                  expiryV := none } evs := by
  show runEvents sch st (.keyE "columns" ::
      (([.startObjectE] ++ evConcat (fun nc => .keyE nc.1 :: dumpCell nc.2) cells ++
        [.endObjectE]) ++ evs)) = _
  simp only [List.cons_append, List.nil_append, List.append_assoc]
  rw [run_keyColumns sch st R _ hstk]
  rw [run_startObjCC sch _ st.stack _ (by rfl)]
  rw [run_cells sch .before_clustering_columns cells _ st.stack R0 _ (by rfl) (by first | rfl | exact hrow)
    (by first | rfl | exact hcol) (by first | rfl | exact hbool) (by first | rfl | exact hint) (by first | rfl | exact hstr) (by first | rfl | exact httl)
    (by first | rfl | exact hexp)
    (fun nc h => by
      obtain ⟨cdef, h1, h2, h3⟩ := hcells nc h
      exact ⟨cdef, h1, h2, by simp, by simp [h3]⟩)]
  rw [run_endObjCC sch _ st.stack _ (by rfl)]

theorem run_staticObj (sch : Schema) (st : HState) (R : List PState) (cells : Row)
    (evs : List JsonEvent)
    (hstk : st.stack = .before_static_columns :: R)
    (hcol : st.colV = none) (hbool : st.boolV = none)
    (hint : st.intV = none) (hstr : st.strV = none) (httl : st.ttlV = none)
    (hexp : st.expiryV = none)
    (hcells : ∀ nc ∈ cells, ∃ cdef, sch.lookupCol nc.1 = some cdef ∧ cdef.isAtomic = true ∧
      cdef.kind = .static_column) :
    runEvents sch st (dumpRow cells ++ evs) =
      runEvents sch
        { st with stack := R, lastKey := cellsLastKey st.lastKey cells, rowV := none,
                  colV := none, boolV := none, intV := none, strV := none, ttlV := none,
                  expiryV := none,
                  emitted := st.emitted ++ [some (.staticRow (rowFold [] cells))] } evs := by
  show runEvents sch st
      (([.startObjectE] ++ evConcat (fun nc => .keyE nc.1 :: dumpCell nc.2) cells ++
        [.endObjectE]) ++ evs) = _
  simp only [List.cons_append, List.nil_append, List.append_assoc]
  rw [run_startObjSC sch st R _ hstk]
  rw [run_cells sch .before_static_columns cells _ R [] _ (by rw [hstk]) (by rfl)
    (by first | rfl | exact hcol) (by first | rfl | exact hbool) (by first | rfl | exact hint) (by first | rfl | exact hstr) (by first | rfl | exact httl)
    (by first | rfl | exact hexp)
    (fun nc h => by
      obtain ⟨cdef, h1, h2, h3⟩ := hcells nc h
      exact ⟨cdef, h1, h2, by simp [h3], by simp⟩)]
  rw [run_endObjSC sch _ R (rowFold [] cells) _ (by rw [hstk]) (by rfl)]


theorem tombApply_none (r : Option Tombstone) : tombApply r none = r := by
  cases r <;> rfl

theorem regular_none_of_inv (reg : Option Tombstone)
    (hinv : tombApply reg none = none) : reg = none := by
  cases reg with
  | none => rfl
  | some c => simp [tombApply] at hinv

theorem run_crow (sch : Schema) (st : HState) (T : List PState) (key : Bytes)
    (tomb : RowTombstone) (marker : Option RowMarker) (cells : Row) (evs : List JsonEvent)
    (hstk : st.stack = .before_clustering_element :: T)
    (hsh : st.isShadowable = false) (hrt : st.rowTombV = none) (hmk : st.markerV = none)
    (hcol : st.colV = none) (hbool : st.boolV = none) (hint : st.intV = none)
    (hstr : st.strV = none) (httl : st.ttlV = none) (hexp : st.expiryV = none)
    (htv : st.tombV = none)
    (hwk : ∀ b ∈ key, b < 256)
    (hinv : tombApply tomb.regular tomb.shadowable = tomb.shadowable)
    (hcells : ∀ nc ∈ cells, ∃ cdef, sch.lookupCol nc.1 = some cdef ∧ cdef.isAtomic = true ∧
      cdef.kind = .regular_column) :
    runEvents sch st (dumpClusteringRow key tomb marker cells ++ evs) =
      runEvents sch
        { st with lastKey := cellsLastKey "columns" cells, isShadowable := false, tombV := none,
                  ckeyV := none, markerV := none, rowTombV := none, rowV := none, colV := none,
                  boolV := none, intV := none, strV := none, ttlV := none, expiryV := none,
                  emitted := st.emitted ++
                    [some (.clusteringRow key tomb marker (rowFold [] cells))] } evs := by
  rcases tomb with ⟨reg, shad⟩
  cases shad with
  | some shadt =>
    cases marker with
    | none =>
      simp only [dumpClusteringRow, RowTombstone.isPresent, RowTombstone.regular,
        RowTombstone.shadowable, Option.isSome_some, Option.isSome_none, if_true,
        List.cons_append, List.nil_append, List.append_nil, List.append_assoc]
      rw [run_elemStart sch st T _ hstk]
      rw [run_elemTypeCrow sch _ st.stack _ (by rfl)]
      rw [run_ckeyObj_crow sch _ (.in_clustering_element :: st.stack) key _ (by rfl) hwk]
      rw [run_crowTomb sch _ (.in_clustering_element :: st.stack) reg _ (by rfl) (by first | rfl | exact hsh)
        (by first | rfl | exact hint) (by rfl)]
      rw [run_crowShadowableTomb sch _ (.in_clustering_element :: st.stack)
        (RowTombstone.ofTomb reg) (some shadt) _ (by rfl) (by rfl) (by rfl) (by rfl)]
      rw [run_columns sch _ (.in_clustering_element :: st.stack) cells [] _ (by rfl) (by rfl)
        (by first | rfl | exact hcol) (by first | rfl | exact hbool) (by rfl) (by rfl) (by first | rfl | exact httl) (by first | rfl | exact hexp)
        hcells]
      rw [run_crowEnd sch _ st.stack key (rowFold [] cells) _ (by rfl) (by rfl) (by rfl)]
      congr 1
      simp [RowTombstone.applyShadowable, RowTombstone.ofTomb, RowTombstone.empty,
        RowTombstone.regular, RowTombstone.shadowable, RowTombstone.tomb, hsh, hmk, hrt, htv,
        hbool, hcol, hint, hstr, httl, hexp, hinv]
    | some m =>
      simp only [dumpClusteringRow, RowTombstone.isPresent, RowTombstone.regular,
        RowTombstone.shadowable, Option.isSome_some, Option.isSome_none, if_true,
        List.cons_append, List.nil_append, List.append_nil, List.append_assoc]
      rw [run_elemStart sch st T _ hstk]
      rw [run_elemTypeCrow sch _ st.stack _ (by rfl)]
      rw [run_ckeyObj_crow sch _ (.in_clustering_element :: st.stack) key _ (by rfl) hwk]
      rw [run_crowTomb sch _ (.in_clustering_element :: st.stack) reg _ (by rfl) (by first | rfl | exact hsh)
        (by first | rfl | exact hint) (by rfl)]
      rw [run_crowShadowableTomb sch _ (.in_clustering_element :: st.stack)
        (RowTombstone.ofTomb reg) (some shadt) _ (by rfl) (by rfl) (by rfl) (by rfl)]
      rw [run_marker sch _ (.in_clustering_element :: st.stack) m _ (by rfl) (by first | rfl | exact httl)
        (by first | rfl | exact hexp) (by rfl)]
      rw [run_columns sch _ (.in_clustering_element :: st.stack) cells [] _ (by rfl) (by rfl)
        (by first | rfl | exact hcol) (by first | rfl | exact hbool) (by rfl) (by rfl) (by rfl) (by rfl) hcells]
      rw [run_crowEnd sch _ st.stack key (rowFold [] cells) _ (by rfl) (by rfl) (by rfl)]
      congr 1
      simp [RowTombstone.applyShadowable, RowTombstone.ofTomb, RowTombstone.empty,
        RowTombstone.regular, RowTombstone.shadowable, RowTombstone.tomb, hsh, hmk, hrt, htv,
        hbool, hcol, hint, hstr, httl, hexp, hinv]
  | none =>
    have hreg : reg = none := regular_none_of_inv reg hinv
    subst hreg
    cases marker with
    | none =>
      simp only [dumpClusteringRow, RowTombstone.isPresent, RowTombstone.regular,
        RowTombstone.shadowable, Option.isSome_some, Option.isSome_none, Bool.false_eq_true,
        if_false, List.cons_append, List.nil_append, List.append_nil, List.append_assoc]
      rw [run_elemStart sch st T _ hstk]
      rw [run_elemTypeCrow sch _ st.stack _ (by rfl)]
      rw [run_ckeyObj_crow sch _ (.in_clustering_element :: st.stack) key _ (by rfl) hwk]
      rw [run_columns sch _ (.in_clustering_element :: st.stack) cells [] _ (by rfl) (by rfl)
        (by first | rfl | exact hcol) (by first | rfl | exact hbool) (by first | rfl | exact hint) (by rfl) (by first | rfl | exact httl)
        (by first | rfl | exact hexp) hcells]
      rw [run_crowEnd sch _ st.stack key (rowFold [] cells) _ (by rfl) (by rfl) (by rfl)]
      congr 1
      simp [hsh, hrt, htv, hmk, hbool, hcol, hint, hstr, httl, hexp, RowTombstone.empty]
    | some m =>
      simp only [dumpClusteringRow, RowTombstone.isPresent, RowTombstone.regular,
        RowTombstone.shadowable, Option.isSome_some, Option.isSome_none, Bool.false_eq_true,
        if_false, List.cons_append, List.nil_append, List.append_nil, List.append_assoc]
      rw [run_elemStart sch st T _ hstk]
      rw [run_elemTypeCrow sch _ st.stack _ (by rfl)]
      rw [run_ckeyObj_crow sch _ (.in_clustering_element :: st.stack) key _ (by rfl) hwk]
      rw [run_marker sch _ (.in_clustering_element :: st.stack) m _ (by rfl) (by first | rfl | exact httl)
        (by first | rfl | exact hexp) (by rfl)]
      rw [run_columns sch _ (.in_clustering_element :: st.stack) cells [] _ (by rfl) (by rfl)
        (by first | rfl | exact hcol) (by first | rfl | exact hbool) (by first | rfl | exact hint) (by rfl) (by rfl) (by rfl) hcells]
      rw [run_crowEnd sch _ st.stack key (rowFold [] cells) _ (by rfl) (by rfl) (by rfl)]
      congr 1
      simp [hsh, hrt, htv, hmk, hbool, hcol, hint, hstr, httl, hexp, RowTombstone.empty]


theorem run_rtcElem (sch : Schema) (st : HState) (T : List PState) (key : Bytes)
    (w : BoundWeight) (tomb : Option Tombstone) (evs : List JsonEvent)
    (hstk : st.stack = .before_clustering_element :: T)
    (hw : w ≠ .equal)
    (hck : st.ckeyV = none) (hmk : st.markerV = none)
    (hcol : st.colV = none) (hbool : st.boolV = none) (hint : st.intV = none)
    (hstr : st.strV = none) (httl : st.ttlV = none) (hexp : st.expiryV = none)
    (hwk : ∀ b ∈ key, b < 256) :
    runEvents sch st (dumpRtc key w tomb ++ evs) =
      runEvents sch
        { st with lastKey := tombLastKey "tombstone" tomb, isShadowable := false, tombV := none,
                  ckeyV := none, bwV := none, markerV := none, rowTombV := none,
                  rowV := some [], colV := none, boolV := none, intV := none, strV := none,
                  ttlV := none, expiryV := none,
                  emitted := st.emitted ++ [some (.rangeTombstoneChange key w tomb)] } evs := by
  by_cases hkey : key = []
  · subst hkey
    simp only [dumpRtc, if_pos rfl, reduceIte, List.cons_append, List.nil_append,
      List.append_nil, List.append_assoc]
    rw [run_elemStart sch st T _ hstk]
    rw [run_elemTypeRtc sch _ st.stack _ (by rfl)]
    rw [run_rtcWeight sch _ (.in_clustering_element :: st.stack) w _ (by rfl)]
    rw [run_rtcTomb sch _ (.in_clustering_element :: st.stack) tomb _ (by rfl) (by rfl)
      (by first | rfl | exact hstr)]
    rw [run_rtcEnd sch _ st.stack w (RowTombstone.ofTomb tomb) _ (by rfl) (by rfl) hw (by rfl)]
    congr 1
    simp [RowTombstone.ofTomb, RowTombstone.tomb, hck, hmk, hcol, hbool, httl, hexp]
  · simp only [dumpRtc, if_neg hkey, reduceIte, List.cons_append, List.nil_append,
      List.append_nil, List.append_assoc]
    rw [run_elemStart sch st T _ hstk]
    rw [run_elemTypeRtc sch _ st.stack _ (by rfl)]
    rw [run_ckeyObj_rtc sch _ (.in_clustering_element :: st.stack) key _ (by rfl) hwk]
    rw [run_rtcWeight sch _ (.in_clustering_element :: st.stack) w _ (by rfl)]
    rw [run_rtcTomb sch _ (.in_clustering_element :: st.stack) tomb _ (by rfl) (by rfl)
      (by first | rfl | exact hstr)]
    rw [run_rtcEnd sch _ st.stack w (RowTombstone.ofTomb tomb) _ (by rfl) (by rfl) hw (by rfl)]
    congr 1
    simp [RowTombstone.ofTomb, RowTombstone.tomb, hck, hmk, hcol, hbool, httl, hexp]


def elemLastKey : CElem → String
  | .crow _ _ _ cells => cellsLastKey "columns" cells
  | .rtc _ _ tomb => tombLastKey "tombstone" tomb

def elemRowV : CElem → Option Row
  | .crow _ _ _ _ => none
  | .rtc _ _ _ => some []

/-- The fragment the parser reconstructs for a dumped clustering element
(before resolving the row fold). -/
def elemFragRaw : CElem → Fragment
  | .crow k t m cells => .clusteringRow k t m (rowFold [] cells)
  | .rtc k w t => .rangeTombstoneChange k w t

/-- Well-formedness of a clustering element for the supported write subset:
byte values are bytes, the row tombstone invariant holds (shadowable at
least as strong as regular), all columns are atomic regular columns of the
schema with distinct names, and a range tombstone change never carries the
equal weight. -/
def WFElem (sch : Schema) : CElem → Prop
  | .crow k t _ cells => (∀ b ∈ k, b < 256) ∧
      tombApply t.regular t.shadowable = t.shadowable ∧
      (∀ nc ∈ cells, ∃ cdef, sch.lookupCol nc.1 = some cdef ∧ cdef.isAtomic = true ∧
        cdef.kind = .regular_column) ∧
      cells.Pairwise (fun a b => a.1 ≠ b.1)
  | .rtc k w _ => (∀ b ∈ k, b < 256) ∧ w ≠ .equal

theorem run_elem (sch : Schema) (st : HState) (T : List PState) (e : CElem)
    (evs : List JsonEvent)
    (hstk : st.stack = .before_clustering_element :: T)
    (hsh : st.isShadowable = false) (hrt : st.rowTombV = none) (hmk : st.markerV = none)
    (hcol : st.colV = none) (hbool : st.boolV = none) (hint : st.intV = none)
    (hstr : st.strV = none) (httl : st.ttlV = none) (hexp : st.expiryV = none)
    (htv : st.tombV = none) (hck : st.ckeyV = none) (hbw : st.bwV = none)
    (hwf : WFElem sch e) :
    runEvents sch st (dumpElem e ++ evs) =
      runEvents sch
        { st with lastKey := elemLastKey e, isShadowable := false, tombV := none,
                  ckeyV := none, bwV := none, markerV := none, rowTombV := none,
                  rowV := elemRowV e, colV := none, boolV := none, intV := none, strV := none,
                  ttlV := none, expiryV := none,
                  emitted := st.emitted ++ [some (elemFragRaw e)] } evs := by
  cases e with
  | crow k t m cells =>
    obtain ⟨hwk, hinv, hcells, _⟩ := hwf
    rw [show dumpElem (.crow k t m cells) = dumpClusteringRow k t m cells from rfl,
      run_crow sch st T k t m cells evs hstk hsh hrt hmk hcol hbool hint hstr httl hexp htv
        hwk hinv hcells]
    congr 1
    simp [elemLastKey, elemRowV, elemFragRaw, hbw]
  | rtc k w t =>
    obtain ⟨hwk, hw⟩ := hwf
    rw [show dumpElem (.rtc k w t) = dumpRtc k w t from rfl,
      run_rtcElem sch st T k w t evs hstk hw hck hmk hcol hbool hint hstr httl hexp hwk]
    congr 1

def elemsLastKey (k0 : String) (elems : List CElem) : String :=
  elems.foldl (fun _ e => elemLastKey e) k0

def elemsRowV (r0 : Option Row) (elems : List CElem) : Option Row :=
  elems.foldl (fun _ e => elemRowV e) r0

theorem run_elems (sch : Schema) (elems : List CElem) :
    ∀ (st : HState) (T : List PState) (evs : List JsonEvent),
    st.stack = .before_clustering_element :: T →
    st.isShadowable = false → st.rowTombV = none → st.markerV = none →
    st.colV = none → st.boolV = none → st.intV = none → st.strV = none →
    st.ttlV = none → st.expiryV = none → st.tombV = none → st.ckeyV = none → st.bwV = none →
    (∀ e ∈ elems, WFElem sch e) →
    runEvents sch st (evConcat dumpElem elems ++ evs) =
      runEvents sch
        { st with lastKey := elemsLastKey st.lastKey elems, isShadowable := false,
                  tombV := none, ckeyV := none, bwV := none, markerV := none, rowTombV := none,
                  rowV := elemsRowV st.rowV elems, colV := none, boolV := none, intV := none,
                  strV := none, ttlV := none, expiryV := none,
                  emitted := st.emitted ++ elems.map (fun e => some (elemFragRaw e)) } evs := by
  induction elems with
  | nil =>
    intro st T evs hstk hsh hrt hmk hcol hbool hint hstr httl hexp htv hck hbw _
    show runEvents sch st ([] ++ evs) = _
    rw [List.nil_append]
    congr 1
    rcases st with ⟨stk, lk, ps, ish, bv, iv, sv, pk, tv, ck, bw, mk, rt, rv, cv, tt, ex, em⟩
    simp_all [elemsLastKey, elemsRowV]
  | cons e rest ih =>
    intro st T evs hstk hsh hrt hmk hcol hbool hint hstr httl hexp htv hck hbw hwf
    show runEvents sch st ((dumpElem e ++ evConcat dumpElem rest) ++ evs) = _
    rw [List.append_assoc]
    rw [run_elem sch st T e _ hstk hsh hrt hmk hcol hbool hint hstr httl hexp htv hck hbw
      (hwf e (by simp))]
    rw [ih { st with
               lastKey := elemLastKey e, isShadowable := false, tombV := none, ckeyV := none,
               bwV := none, markerV := none, rowTombV := none, rowV := elemRowV e,
               colV := none, boolV := none, intV := none, strV := none, ttlV := none,
               expiryV := none, emitted := st.emitted ++ [some (elemFragRaw e)] }
          T evs hstk rfl rfl rfl rfl rfl rfl rfl rfl rfl rfl rfl rfl
          (fun x hx => hwf x (by simp [hx]))]
    congr 1
    simp [elemsLastKey, elemsRowV]


theorem rowFold_pairwise (cells : Row) : ∀ r0 : Row,
    (∀ nc ∈ cells, ∀ p ∈ r0, ¬ p.1 = nc.1) →
    cells.Pairwise (fun a b => a.1 ≠ b.1) →
    rowFold r0 cells = r0 ++ cells := by
  induction cells with
  | nil => intro r0 _ _; simp [rowFold]
  | cons nc cs ih =>
    intro r0 h hpw
    show rowFold (rowApply r0 nc.1 nc.2) cs = _
    have hfind : r0.find? (fun p => p.1 = nc.1) = none := by
      rw [List.find?_eq_none]
      intro p hp
      simpa using h nc (by simp) p hp
    rw [show rowApply r0 nc.1 nc.2 = r0 ++ [(nc.1, nc.2)] from by simp [rowApply, hfind]]
    rw [ih (r0 ++ [(nc.1, nc.2)])
      (fun x hx p hp => by
        rcases List.mem_append.mp hp with hp | hp
        · exact h x (by simp [hx]) p hp
        · simp at hp
          subst hp
          simpa using (List.pairwise_cons.mp hpw).1 x hx)
      (List.pairwise_cons.mp hpw).2]
    simp

theorem rowFold_nil_eq (cells : Row) (hpw : cells.Pairwise (fun a b => a.1 ≠ b.1)) :
    rowFold [] cells = cells := by
  simpa using rowFold_pairwise cells [] (by simp) hpw

theorem elemFragRaw_eq_fragOfElem (sch : Schema) (e : CElem) (hwf : WFElem sch e) :
    elemFragRaw e = fragOfElem e := by
  cases e with
  | crow k t m cells =>
    obtain ⟨_, _, _, hpw⟩ := hwf
    simp [elemFragRaw, fragOfElem, rowFold_nil_eq cells hpw]
  | rtc k w t => rfl

theorem map_elemFragRaw_eq (sch : Schema) (elems : List CElem)
    (h : ∀ e ∈ elems, WFElem sch e) :
    elems.map (fun e => some (elemFragRaw e)) = (elems.map fragOfElem).map some := by
  induction elems with
  | nil => rfl
  | cons e es ih =>
    simp only [List.map_cons, elemFragRaw_eq_fragOfElem sch e (h e (by simp)),
      ih (fun x hx => h x (by simp [hx]))]

/-- The lastKey value after a full dumped partition object. -/
def pLastKey (p : PartitionData) : String :=
  elemsLastKey
    (match p.staticCells with
     | some cs => cellsLastKey "static_row" cs
     | none =>
       match p.tomb with
       | some _ => "deletion_time"
       | none => "value")
    p.elems

/-- The rowV scratch value after a full dumped partition object. -/
def pRowV (r0 : Option Row) (p : PartitionData) : Option Row :=
  elemsRowV (match p.staticCells with | some _ => none | none => r0) p.elems

/-- Well-formedness of a partition for the supported write subset: byte
values are bytes, static columns are atomic static columns of the schema
with distinct names, every clustering element is well formed, and the
partition is not completely empty (the tool only dumps partitions coming
from a reader, which always have at least their start emitted before
anything else, and the write subset requires schema columns to exist). -/
def WFPartition (sch : Schema) (p : PartitionData) : Prop :=
  (∀ b ∈ p.key, b < 256) ∧
  (match p.staticCells with
   | some cs => (∀ nc ∈ cs, ∃ cdef, sch.lookupCol nc.1 = some cdef ∧ cdef.isAtomic = true ∧
       cdef.kind = .static_column) ∧ cs.Pairwise (fun a b => a.1 ≠ b.1)
   | none => True) ∧
  (∀ e ∈ p.elems, WFElem sch e) ∧
  (p.tomb.isSome ∨ p.staticCells.isSome ∨ p.elems ≠ [])

theorem run_partition (sch : Schema) (st : HState) (S : List PState) (p : PartitionData)
    (evs : List JsonEvent)
    (hstk : st.stack = .before_partition :: S)
    (hps : st.psEmitted = false)
    (hsh : st.isShadowable = false) (hrt : st.rowTombV = none) (hmk : st.markerV = none)
    (hcol : st.colV = none) (hbool : st.boolV = none) (hint : st.intV = none)
    (hstr : st.strV = none) (httl : st.ttlV = none) (hexp : st.expiryV = none)
    (htv : st.tombV = none) (hck : st.ckeyV = none) (hbw : st.bwV = none)
    (hwf : WFPartition sch p) :
    runEvents sch st (dumpPartition p ++ evs) =
      runEvents sch
        { st with lastKey := pLastKey p, psEmitted := false, pkeyV := none,
                  isShadowable := false, boolV := none, intV := none, strV := none,
                  tombV := none, ckeyV := none, bwV := none, markerV := none, rowTombV := none,
                  rowV := pRowV st.rowV p, colV := none, ttlV := none, expiryV := none,
                  emitted := st.emitted ++ (fragmentsOfPartition p).map some } evs := by
  obtain ⟨hwk, hwstat, hwelems, hne⟩ := hwf
  rcases p with ⟨key, tomb, static, elems⟩
  cases tomb with
  | some t =>
    cases static with
    | some cs =>
      obtain ⟨hcs, hcspw⟩ := hwstat
      cases elems with
      | nil =>
        simp only [dumpPartition, List.isEmpty_nil, if_true, List.cons_append, List.nil_append,
          List.append_nil, List.append_assoc]
        rw [run_partObjStart sch st S _ hstk]
        rw [run_pkeyObj sch _ st.stack key _ (by rfl) hwk]
        rw [run_partTomb sch _ st.stack key t _ (by rfl) (by rfl)]
        rw [run_staticKey sch _ st.stack _ (by rfl) (by rfl)]
        rw [run_staticObj sch _ (.in_partition :: st.stack) cs _ (by rfl)
          (by first | rfl | exact hcol) (by first | rfl | exact hbool) (by rfl) (by rfl)
          (by first | rfl | exact httl) (by first | rfl | exact hexp) hcs]
        rw [run_partObjEnd sch _ st.stack _ (by rfl)]
        congr 1
        simp [pLastKey, pRowV, elemsLastKey, elemsRowV, fragmentsOfPartition,
          rowFold_nil_eq cs hcspw, hsh, hrt, hmk, hck, hbw]
      | cons e es =>
        simp only [dumpPartition, List.isEmpty_cons, Bool.false_eq_true, if_false,
          List.cons_append, List.nil_append, List.append_nil, List.append_assoc]
        rw [run_partObjStart sch st S _ hstk]
        rw [run_pkeyObj sch _ st.stack key _ (by rfl) hwk]
        rw [run_partTomb sch _ st.stack key t _ (by rfl) (by rfl)]
        rw [run_staticKey sch _ st.stack _ (by rfl) (by rfl)]
        rw [run_staticObj sch _ (.in_partition :: st.stack) cs _ (by rfl)
          (by first | rfl | exact hcol) (by first | rfl | exact hbool) (by rfl) (by rfl)
          (by first | rfl | exact httl) (by first | rfl | exact hexp) hcs]
        rw [run_celemsKey sch _ st.stack _ (by rfl) (by rfl)]
        rw [run_celemsArrStart sch _ (.in_partition :: st.stack) _ (by rfl)]
        rw [run_elems sch (e :: es) _ (.before_clustering_elements :: .in_partition :: st.stack)
          _ (by rfl) (by first | rfl | exact hsh) (by first | rfl | exact hrt)
          (by first | rfl | exact hmk) (by rfl) (by rfl) (by rfl) (by rfl) (by rfl) (by rfl)
          (by rfl) (by first | rfl | exact hck) (by first | rfl | exact hbw) hwelems]
        rw [run_celemsArrEnd sch _ .before_clustering_elements (.in_partition :: st.stack) _
          (by rfl)]
        rw [run_partObjEnd sch _ st.stack _ (by rfl)]
        congr 1
        simp [pLastKey, pRowV, elemsLastKey, elemsRowV, fragmentsOfPartition,
          rowFold_nil_eq cs hcspw, map_elemFragRaw_eq sch (e :: es) hwelems,
          hsh, hrt, hmk, hck, hbw]
    | none =>
      cases elems with
      | nil =>
        simp only [dumpPartition, List.isEmpty_nil, if_true, List.cons_append, List.nil_append,
          List.append_nil, List.append_assoc]
        rw [run_partObjStart sch st S _ hstk]
        rw [run_pkeyObj sch _ st.stack key _ (by rfl) hwk]
        rw [run_partTomb sch _ st.stack key t _ (by rfl) (by rfl)]
        rw [run_partObjEnd sch _ st.stack _ (by rfl)]
        congr 1
        simp [pLastKey, pRowV, elemsLastKey, elemsRowV, fragmentsOfPartition,
          hsh, hrt, hmk, hcol, hbool, httl, hexp, hck, hbw]
      | cons e es =>
        simp only [dumpPartition, List.isEmpty_cons, Bool.false_eq_true, if_false,
          List.cons_append, List.nil_append, List.append_nil, List.append_assoc]
        rw [run_partObjStart sch st S _ hstk]
        rw [run_pkeyObj sch _ st.stack key _ (by rfl) hwk]
        rw [run_partTomb sch _ st.stack key t _ (by rfl) (by rfl)]
        rw [run_celemsKey sch _ st.stack _ (by rfl) (by rfl)]
        rw [run_celemsArrStart sch _ (.in_partition :: st.stack) _ (by rfl)]
        rw [run_elems sch (e :: es) _ (.before_clustering_elements :: .in_partition :: st.stack)
          _ (by rfl) (by first | rfl | exact hsh) (by first | rfl | exact hrt)
          (by first | rfl | exact hmk) (by first | rfl | exact hcol)
          (by first | rfl | exact hbool) (by rfl) (by rfl) (by first | rfl | exact httl)
          (by first | rfl | exact hexp) (by rfl) (by first | rfl | exact hck)
          (by first | rfl | exact hbw) hwelems]
        rw [run_celemsArrEnd sch _ .before_clustering_elements (.in_partition :: st.stack) _
          (by rfl)]
        rw [run_partObjEnd sch _ st.stack _ (by rfl)]
        congr 1
        simp [pLastKey, pRowV, elemsLastKey, elemsRowV, fragmentsOfPartition,
          map_elemFragRaw_eq sch (e :: es) hwelems, hsh, hrt, hmk, hck, hbw]
  | none =>
    cases static with
    | some cs =>
      obtain ⟨hcs, hcspw⟩ := hwstat
      cases elems with
      | nil =>
        simp only [dumpPartition, List.isEmpty_nil, if_true, List.cons_append, List.nil_append,
          List.append_nil, List.append_assoc]
        rw [run_partObjStart sch st S _ hstk]
        rw [run_pkeyObj sch _ st.stack key _ (by rfl) hwk]
        rw [run_staticKeyFresh sch _ st.stack key _ (by rfl) (by first | rfl | exact hps)
          (by rfl)]
        rw [run_staticObj sch _ (.in_partition :: st.stack) cs _ (by rfl)
          (by first | rfl | exact hcol) (by first | rfl | exact hbool)
          (by first | rfl | exact hint) (by rfl)
          (by first | rfl | exact httl) (by first | rfl | exact hexp) hcs]
        rw [run_partObjEnd sch _ st.stack _ (by rfl)]
        congr 1
        simp [pLastKey, pRowV, elemsLastKey, elemsRowV, fragmentsOfPartition,
          rowFold_nil_eq cs hcspw, hsh, hrt, hmk, htv, hck, hbw]
      | cons e es =>
        simp only [dumpPartition, List.isEmpty_cons, Bool.false_eq_true, if_false,
          List.cons_append, List.nil_append, List.append_nil, List.append_assoc]
        rw [run_partObjStart sch st S _ hstk]
        rw [run_pkeyObj sch _ st.stack key _ (by rfl) hwk]
        rw [run_staticKeyFresh sch _ st.stack key _ (by rfl) (by first | rfl | exact hps)
          (by rfl)]
        rw [run_staticObj sch _ (.in_partition :: st.stack) cs _ (by rfl)
          (by first | rfl | exact hcol) (by first | rfl | exact hbool)
          (by first | rfl | exact hint) (by rfl)
          (by first | rfl | exact httl) (by first | rfl | exact hexp) hcs]
        rw [run_celemsKey sch _ st.stack _ (by rfl) (by rfl)]
        rw [run_celemsArrStart sch _ (.in_partition :: st.stack) _ (by rfl)]
        rw [run_elems sch (e :: es) _ (.before_clustering_elements :: .in_partition :: st.stack)
          _ (by rfl) (by first | rfl | exact hsh) (by first | rfl | exact hrt)
          (by first | rfl | exact hmk) (by rfl) (by rfl) (by rfl) (by rfl) (by rfl) (by rfl)
          (by first | rfl | exact htv) (by first | rfl | exact hck)
          (by first | rfl | exact hbw) hwelems]
        rw [run_celemsArrEnd sch _ .before_clustering_elements (.in_partition :: st.stack) _
          (by rfl)]
        rw [run_partObjEnd sch _ st.stack _ (by rfl)]
        congr 1
        simp [pLastKey, pRowV, elemsLastKey, elemsRowV, fragmentsOfPartition,
          rowFold_nil_eq cs hcspw, map_elemFragRaw_eq sch (e :: es) hwelems,
          hsh, hrt, hmk, htv, hck, hbw]
    | none =>
      cases elems with
      | nil => simp at hne
      | cons e es =>
        simp only [dumpPartition, List.isEmpty_cons, Bool.false_eq_true, if_false,
          List.cons_append, List.nil_append, List.append_nil, List.append_assoc]
        rw [run_partObjStart sch st S _ hstk]
        rw [run_pkeyObj sch _ st.stack key _ (by rfl) hwk]
        rw [run_celemsKeyFresh sch _ st.stack key _ (by rfl) (by first | rfl | exact hps)
          (by rfl)]
        rw [run_celemsArrStart sch _ (.in_partition :: st.stack) _ (by rfl)]
        rw [run_elems sch (e :: es) _ (.before_clustering_elements :: .in_partition :: st.stack)
          _ (by rfl) (by first | rfl | exact hsh) (by first | rfl | exact hrt)
          (by first | rfl | exact hmk) (by first | rfl | exact hcol)
          (by first | rfl | exact hbool) (by first | rfl | exact hint) (by rfl)
          (by first | rfl | exact httl) (by first | rfl | exact hexp)
          (by first | rfl | exact htv) (by first | rfl | exact hck)
          (by first | rfl | exact hbw) hwelems]
        rw [run_celemsArrEnd sch _ .before_clustering_elements (.in_partition :: st.stack) _
          (by rfl)]
        rw [run_partObjEnd sch _ st.stack _ (by rfl)]
        congr 1
        simp [pLastKey, pRowV, elemsLastKey, elemsRowV, fragmentsOfPartition,
          map_elemFragRaw_eq sch (e :: es) hwelems, hsh, hrt, hmk, htv, hck, hbw]


def psLastKey (k0 : String) (ps : List PartitionData) : String :=
  ps.foldl (fun _ p => pLastKey p) k0

def psRowV (r0 : Option Row) (ps : List PartitionData) : Option Row :=
  ps.foldl (fun r p => pRowV r p) r0

def psPkeyV (v0 : Option Bytes) (ps : List PartitionData) : Option Bytes :=
  ps.foldl (fun _ _ => none) v0

theorem run_stream (sch : Schema) (ps : List PartitionData) :
    ∀ (st : HState) (S : List PState) (evs : List JsonEvent),
    st.stack = .before_partition :: S →
    st.psEmitted = false →
    st.isShadowable = false → st.rowTombV = none → st.markerV = none →
    st.colV = none → st.boolV = none → st.intV = none → st.strV = none →
    st.ttlV = none → st.expiryV = none → st.tombV = none → st.ckeyV = none → st.bwV = none →
    (∀ p ∈ ps, WFPartition sch p) →
    runEvents sch st (evConcat dumpPartition ps ++ evs) =
      runEvents sch
        { st with lastKey := psLastKey st.lastKey ps, psEmitted := false,
                  pkeyV := psPkeyV st.pkeyV ps, isShadowable := false, boolV := none,
                  intV := none, strV := none, tombV := none, ckeyV := none, bwV := none,
                  markerV := none, rowTombV := none, rowV := psRowV st.rowV ps, colV := none,
                  ttlV := none, expiryV := none,
                  emitted := st.emitted ++ (fragmentsOfStream ps).map some } evs := by
  induction ps with
  | nil =>
    intro st S evs hstk hps hsh hrt hmk hcol hbool hint hstr httl hexp htv hck hbw _
    show runEvents sch st ([] ++ evs) = _
    rw [List.nil_append]
    congr 1
    rcases st with ⟨stk, lk, pse, ish, bv, iv, sv, pk, tv, ck, bw, mk, rt, rv, cv, tt, ex, em⟩
    simp_all [psLastKey, psRowV, psPkeyV, fragmentsOfStream]
  | cons p rest ih =>
    intro st S evs hstk hps hsh hrt hmk hcol hbool hint hstr httl hexp htv hck hbw hwf
    show runEvents sch st ((dumpPartition p ++ evConcat dumpPartition rest) ++ evs) = _
    rw [List.append_assoc]
    rw [run_partition sch st S p _ hstk hps hsh hrt hmk hcol hbool hint hstr httl hexp htv
      hck hbw (hwf p (by simp))]
    rw [ih { st with
               lastKey := pLastKey p, psEmitted := false, pkeyV := none, isShadowable := false,
               boolV := none, intV := none, strV := none, tombV := none, ckeyV := none,
               bwV := none, markerV := none, rowTombV := none, rowV := pRowV st.rowV p,
               colV := none, ttlV := none, expiryV := none,
               emitted := st.emitted ++ (fragmentsOfPartition p).map some }
          S evs hstk rfl rfl rfl rfl rfl rfl rfl rfl rfl rfl rfl rfl rfl
          (fun x hx => hwf x (by simp [hx]))]
    congr 1
    simp [psLastKey, psRowV, psPkeyV, fragmentsOfStream]

theorem psPkeyV_none : ∀ ps : List PartitionData, psPkeyV none ps = none
  | [] => rfl
  | _ :: rest => psPkeyV_none rest

/-- The full parse of a dumped sstable document succeeds and hands off
exactly the original fragment stream followed by the end-of-stream
sentinel. -/
theorem parse_dumpSstable (sch : Schema) (ps : List PartitionData)
    (hwf : ∀ p ∈ ps, WFPartition sch p) :
    runEvents sch initState (dumpSstable ps) =
      ({ initState with lastKey := psLastKey "" ps, stack := [.start],
                        rowV := psRowV none ps,
                        emitted := (fragmentsOfStream ps).map some ++ [none] }, none) := by
  show runEvents sch initState
      (.startArrayE :: (evConcat dumpPartition ps ++ [.endArrayE])) = _
  rw [run_topArrStart sch initState [] _ (by rfl)]
  rw [run_stream sch ps _ initState.stack _ (by rfl) rfl rfl rfl rfl rfl rfl rfl
    rfl rfl rfl rfl rfl rfl hwf]
  rw [run_topArrEnd sch _ initState.stack _ (by rfl)]
  simp [runEvents, initState, psPkeyV_none]


/-! ## Claim C1 -/

/-- A concrete two-column schema for the examples below. -/
def sch1 : Schema :=
  ⟨[("v", ⟨.regular_column, true⟩), ("s", ⟨.static_column, true⟩)]⟩

/-- A concrete partition exercising every feature of the supported write
subset: partition tombstone, static row, clustering row with regular and
shadowable tombstones, an expiring marker, a dead cell, and two range
tombstone changes (one with the empty clustering prefix and the empty
tombstone). -/
def p1 : PartitionData :=
  { key := [171, 1],
    tomb := some ⟨1000, 42⟩,
    staticCells := some [("s", .live 123 "07" (some (10, 99)))],
    elems := [
      .crow [205] ⟨some ⟨5, 6⟩, some ⟨7, 8⟩⟩ (some ⟨9, some (11, 12)⟩) [("v", .dead 13 14)],
      .rtc [15] .before_all (some ⟨15, 16⟩),
      .rtc [] .after_all none] }

theorem p1_wf : ∀ p ∈ [p1], WFPartition sch1 p := by
  intro p hp
  simp only [List.mem_singleton] at hp
  subst hp
  refine ⟨by decide, ⟨?_, by decide⟩, ?_, by decide⟩
  · intro nc h
    simp only [p1, List.mem_singleton] at h
    subst h
    exact ⟨⟨.static_column, true⟩, rfl, rfl, rfl⟩
  · intro e he
    simp only [p1, List.mem_cons, List.not_mem_nil, or_false] at he
    rcases he with he | he | he <;> subst he
    · refine ⟨by decide, by decide, ?_, by decide⟩
      intro nc h
      simp only [List.mem_singleton] at h
      subst h
      exact ⟨⟨.regular_column, true⟩, rfl, rfl, rfl⟩
    · exact ⟨by decide, by decide⟩
    · exact ⟨by decide, by decide⟩

/-- C1: corrected.  For every fragment stream of well-formed, nonempty
partitions inside the supported write subset, parsing the structured dump
of the stream succeeds and hands off exactly the original fragment stream
(followed by the end-of-stream sentinel), so a second dump is identical.
The restriction to nonempty partitions is necessary: see the
counterexample, an empty partition whose partition_start is lost. -/
theorem c1_dump_parse_roundtrip (sch : Schema) (ps : List PartitionData)
    (hwf : ∀ p ∈ ps, WFPartition sch p) :
    (runEvents sch initState (dumpSstable ps)).2 = none ∧
    (runEvents sch initState (dumpSstable ps)).1.emitted =
      (fragmentsOfStream ps).map some ++ [none] := by
  rw [parse_dumpSstable sch ps hwf]
  exact ⟨rfl, rfl⟩

theorem c1_dump_parse_roundtrip_witness :
    (∀ p ∈ [p1], WFPartition sch1 p) ∧
    ((runEvents sch1 initState (dumpSstable [p1])).2 = none ∧
     (runEvents sch1 initState (dumpSstable [p1])).1.emitted =
       (fragmentsOfStream [p1]).map some ++ [none]) :=
  ⟨p1_wf, c1_dump_parse_roundtrip sch1 [p1] p1_wf⟩

/-- C1 counterexample: for the empty partition (a key and nothing else) the
claimed unconditional round trip fails: the dump of its stream parses
without error but hands off only partition_end — the partition_start
fragment is lost, so the re-dump differs. -/
theorem c1_empty_partition_counterexample :
    (runEvents (⟨[]⟩ : Schema) initState
        (dumpSstable [⟨[171], none, none, []⟩])).2 = none ∧
    (runEvents (⟨[]⟩ : Schema) initState
        (dumpSstable [⟨[171], none, none, []⟩])).1.emitted = [some .partitionEnd, none] ∧
    (fragmentsOfStream [⟨[171], none, none, []⟩]).map some ++ [none] =
      [some (.partitionStart [171] none), some .partitionEnd, none] ∧
    (runEvents (⟨[]⟩ : Schema) initState
        (dumpSstable [⟨[171], none, none, []⟩])).1.emitted ≠
      (fragmentsOfStream [⟨[171], none, none, []⟩]).map some ++ [none] := by
  refine ⟨by decide, by decide, by decide, by decide⟩


/-! ## Claim C2 -/

/-- C2: corrected.  Retiring in_partition (the EndObject of a partition
object) emits exactly one partition_end fragment and resets the
partition-start flag; in particular no partition_start fragment is
synthesized first, even when none was emitted for this partition yet
(psEmitted = false, the empty partition consisting of only a key). -/
theorem c2_retire_in_partition (sch : Schema) (st : HState) (R : List PState)
    (hstk : st.stack = .in_partition :: R) :
    handleEvent sch .endObjectE st =
      .ok { st with stack := R, psEmitted := false,
                    emitted := st.emitted ++ [some .partitionEnd] } := by
  simp [handleEvent, onEndObject, retire, finalizePartition, emitFrag, hstk]

theorem c2_retire_in_partition_witness :
    ({ initState with stack := [.in_partition, .before_partition, .start] } : HState).stack =
      .in_partition :: [.before_partition, .start] ∧
    handleEvent (⟨[]⟩ : Schema) .endObjectE
        { initState with stack := [.in_partition, .before_partition, .start] } =
      .ok { initState with
              stack := [.before_partition, .start], psEmitted := false,
              emitted := [some .partitionEnd] } :=
  ⟨rfl, c2_retire_in_partition ⟨[]⟩
    { initState with stack := [.in_partition, .before_partition, .start] }
    [.before_partition, .start] rfl⟩

/-- C2 counterexample: parsing the dump of an empty partition (only a key)
emits the partition_end but never any partition_start fragment, against the
claimed synthesis of a partition_start with an empty tombstone. -/
theorem c2_counterexample :
    (runEvents (⟨[]⟩ : Schema) initState
        (dumpSstable [⟨[171], none, none, []⟩])).1.emitted = [some .partitionEnd, none] ∧
    ∀ k t, some (Fragment.partitionStart k t) ∉
      (runEvents (⟨[]⟩ : Schema) initState
        (dumpSstable [⟨[171], none, none, []⟩])).1.emitted := by
  refine ⟨by decide, ?_⟩
  intro k t h
  rw [show (runEvents (⟨[]⟩ : Schema) initState
      (dumpSstable [⟨[171], none, none, []⟩])).1.emitted = [some .partitionEnd, none]
    from by decide] at h
  simp at h


/-! ## Claim C5 -/

/-- The event prefix of a well-formed document that drives the parser to
its maximal stack depth: inside a clustering row's column object, right
after the is_live key. -/
def c5probe : List JsonEvent :=
  [.startArrayE, .startObjectE, .keyE "key"] ++ dumpPartitionKeyObj [171] ++
  [.keyE "clustering_elements", .startArrayE, .startObjectE, .keyE "type",
   .strE "clustering-row", .keyE "columns", .startObjectE, .keyE "v", .startObjectE,
   .keyE "is_live"]

/-- C5: corrected.  The parser's explicit state stack is bounded by the
grammar at every point during parsing (after any event prefix, for any
schema and any input), but the bound is 12 states, not 8. -/
theorem c5_stack_depth_bound (sch : Schema) (evs : List JsonEvent) :
    ((runEvents sch initState evs).1).stack.length ≤ 12 :=
  chainOK_length_le_12 _ (runEvents_chain sch evs initState initState_chain)

/-- C5 counterexample: a well-formed document prefix (no parse error)
reaching stack depth 12, refuting the claimed bound of 8. -/
theorem c5_depth_counterexample :
    ((runEvents sch1 initState c5probe).1).stack.length = 12 ∧
    (runEvents sch1 initState c5probe).2 = none ∧
    ¬ ((runEvents sch1 initState c5probe).1).stack.length ≤ 8 := by
  refine ⟨by decide, by decide, by decide⟩


/-! ## Claim C6 -/

/-- A range-tombstone-change object (no key, empty tombstone) whose weight
scalar is an arbitrary integer, as event list. -/
def rtcEventsW (w : Int) : List JsonEvent :=
  [.startObjectE, .keyE "type", .strE "range-tombstone-change", .keyE "weight", .intE w,
   .keyE "tombstone", .startObjectE, .endObjectE, .endObjectE]

/-- C6: confirmed.  Parsing a range-tombstone-change object emits a
range_tombstone_change fragment exactly when the weight is -1 or +1; any
other integer (including 0) produces a structural error and no fragment. -/
theorem c6_rtc_weight (sch : Schema) (T : List PState) (k : String) (ps : Bool)
    (E : List (Option Fragment)) (w : Int) :
    (runEvents sch (midState (.before_clustering_element :: T) k ps E)
        (rtcEventsW w)).2.isSome = decide (w ≠ -1 ∧ w ≠ 1) ∧
    (runEvents sch (midState (.before_clustering_element :: T) k ps E)
        (rtcEventsW w)).1.emitted =
      (if w = -1 then E ++ [some (.rangeTombstoneChange [] .before_all none)]
       else if w = 1 then E ++ [some (.rangeTombstoneChange [] .after_all none)]
       else E) := by
  by_cases h1 : w = -1
  · subst h1
    refine ⟨?_, ?_⟩ <;>
      simp [rtcEventsW, runEvents, handleEvent, onStartObject, onKey, onString, onInt,
        onEndObject, retire, pushState, finalizeRtc, emitFrag, midState, getTombstone,
        RowTombstone.ofTomb, RowTombstone.tomb]
  · by_cases h2 : w = 1
    · subst h2
      refine ⟨?_, ?_⟩ <;>
        simp [rtcEventsW, runEvents, handleEvent, onStartObject, onKey, onString, onInt,
          onEndObject, retire, pushState, finalizeRtc, emitFrag, midState, getTombstone,
          RowTombstone.ofTomb, RowTombstone.tomb]
    · by_cases h0 : w = 0
      · subst h0
        refine ⟨?_, ?_⟩ <;>
          simp [rtcEventsW, runEvents, handleEvent, onStartObject, onKey, onString, onInt,
            onEndObject, retire, pushState, finalizeRtc, emitFrag, midState, getTombstone,
            RowTombstone.ofTomb, RowTombstone.tomb]
      · refine ⟨?_, ?_⟩ <;>
          simp [rtcEventsW, runEvents, handleEvent, onStartObject, onKey, onString, onInt,
            onEndObject, retire, pushState, finalizeRtc, emitFrag, midState, getTombstone,
            RowTombstone.ofTomb, RowTombstone.tomb, h1, h2, h0]


/-! ## Claim C7 -/

/-- C7: confirmed.  finalize_column composes an atomic cell only when
is_live and timestamp are present, a live cell additionally has a value and
ttl/expiry jointly present or jointly absent, and a dead cell additionally
has a deletion time; when these conditions are violated the result is a
structural error (and no cell is added, since the parse aborts). -/
theorem c7_finalize_column (st : HState) (r : Row) (c : ColScratch)
    (hr : st.rowV = some r) (hc : st.colV = some c) :
    (∀ st2, finalizeColumn st = .ok st2 →
      c.isLive.isSome = true ∧ c.timestamp.isSome = true ∧
      (c.isLive = some true → c.value.isSome = true ∧ st.ttlV.isSome = st.expiryV.isSome) ∧
      (c.isLive = some false → c.deletionTime.isSome = true)) ∧
    (¬ (c.isLive.isSome = true ∧ c.timestamp.isSome = true ∧
        (c.isLive = some true → c.value.isSome = true ∧ st.ttlV.isSome = st.expiryV.isSome) ∧
        (c.isLive = some false → c.deletionTime.isSome = true)) →
      ∃ e, finalizeColumn st = .error e) := by
  rcases c with ⟨name, cdef, il, ts, v, dt⟩
  constructor
  · intro st2 hok
    unfold finalizeColumn at hok
    rw [hr, hc] at hok
    cases il with
    | none => simp at hok
    | some b =>
      cases ts with
      | none => simp at hok
      | some tsv =>
        cases b with
        | false =>
          cases dt with
          | none => simp at hok
          | some d =>
            refine ⟨by simp, by simp, ?_, fun _ => by simp⟩
            intro h
            simp at h
        | true =>
          cases v with
          | none => simp at hok
          | some vv =>
            by_cases hte : st.expiryV.isSome = st.ttlV.isSome
            · exact ⟨by simp, by simp, fun _ => ⟨by simp, hte.symm⟩, fun h => by simp at h⟩
            · exfalso
              simp [hte] at hok
  · intro hviol
    unfold finalizeColumn
    rw [hr, hc]
    cases il with
    | none => exact ⟨_, rfl⟩
    | some b =>
      cases ts with
      | none => exact ⟨_, rfl⟩
      | some tsv =>
        cases b with
        | false =>
          cases dt with
          | none => exact ⟨_, rfl⟩
          | some d =>
            exact absurd ⟨by simp, by simp, fun h => by simp at h, fun _ => by simp⟩ hviol
        | true =>
          cases v with
          | none => exact ⟨_, rfl⟩
          | some vv =>
            by_cases hte : st.expiryV.isSome = st.ttlV.isSome
            · exact absurd ⟨by simp, by simp, fun _ => ⟨by simp, hte.symm⟩,
                fun h => by simp at h⟩ hviol
            · rcases hE : st.expiryV with _ | ev <;> rcases hT : st.ttlV with _ | tv
              · rw [hE, hT] at hte
                simp at hte
              · exact ⟨_, rfl⟩
              · exact ⟨_, rfl⟩
              · rw [hE, hT] at hte
                simp at hte

theorem c7_finalize_column_witness :
    (({ midState [.in_column] "" false [] with
          rowV := some [], colV := some ⟨"v", ⟨.regular_column, true⟩, some true, some 3,
            some "aa", none⟩ } : HState).rowV = some [] ∧
     ({ midState [.in_column] "" false [] with
          rowV := some [], colV := some ⟨"v", ⟨.regular_column, true⟩, some true, some 3,
            some "aa", none⟩ } : HState).colV = some ⟨"v", ⟨.regular_column, true⟩, some true,
            some 3, some "aa", none⟩) ∧
    ((∀ st2, finalizeColumn { midState [.in_column] "" false [] with
          rowV := some [], colV := some ⟨"v", ⟨.regular_column, true⟩, some true, some 3,
            some "aa", none⟩ } = .ok st2 →
        (some true : Option Bool).isSome = true ∧ (some (3 : Int)).isSome = true ∧
        ((some true : Option Bool) = some true →
          (some "aa" : Option String).isSome = true ∧
          ({ midState [.in_column] "" false [] with
               rowV := some [], colV := some ⟨"v", ⟨.regular_column, true⟩, some true, some 3,
                 some "aa", none⟩ } : HState).ttlV.isSome =
            ({ midState [.in_column] "" false [] with
                 rowV := some [], colV := some ⟨"v", ⟨.regular_column, true⟩, some true, some 3,
                   some "aa", none⟩ } : HState).expiryV.isSome) ∧
        ((some true : Option Bool) = some false → (none : Option Int).isSome = true)) ∧
     (¬ ((some true : Option Bool).isSome = true ∧ (some (3 : Int)).isSome = true ∧
         ((some true : Option Bool) = some true →
           (some "aa" : Option String).isSome = true ∧
           ({ midState [.in_column] "" false [] with
                rowV := some [], colV := some ⟨"v", ⟨.regular_column, true⟩, some true, some 3,
                  some "aa", none⟩ } : HState).ttlV.isSome =
             ({ midState [.in_column] "" false [] with
                  rowV := some [], colV := some ⟨"v", ⟨.regular_column, true⟩, some true, some 3,
                    some "aa", none⟩ } : HState).expiryV.isSome) ∧
         ((some true : Option Bool) = some false → (none : Option Int).isSome = true)) →
       ∃ e, finalizeColumn { midState [.in_column] "" false [] with
           rowV := some [], colV := some ⟨"v", ⟨.regular_column, true⟩, some true, some 3,
             some "aa", none⟩ } = .error e)) :=
  ⟨⟨rfl, rfl⟩, c7_finalize_column _ [] ⟨"v", ⟨.regular_column, true⟩, some true, some 3,
    some "aa", none⟩ rfl rfl⟩


/-! ## Claim C10 -/

/-- One step of the top-level-key scan of an event list: tracks the current
nesting depth and collects the keys written at depth 1 (directly inside the
outermost object). -/
def tlkStep (acc : List String × Nat) (ev : JsonEvent) : List String × Nat :=
  match ev with
  | .startObjectE => (acc.1, acc.2 + 1)
  | .startArrayE => (acc.1, acc.2 + 1)
  | .endObjectE => (acc.1, acc.2 - 1)
  | .endArrayE => (acc.1, acc.2 - 1)
  | .keyE k => (if acc.2 = 1 then acc.1 ++ [k] else acc.1, acc.2)
  | _ => acc

/-- The keys of the outermost object of a dumped JSON value. -/
def topLevelKeys (evs : List JsonEvent) : List String :=
  (evs.foldl tlkStep ([], 0)).1

theorem tlk_keyObj (ks : List String) (k : Bytes) :
    (dumpKeyObj k).foldl tlkStep (ks, 1) = (ks, 1) := rfl

theorem tlk_tombstone (ks : List String) (t : Option Tombstone) :
    (dumpTombstone t).foldl tlkStep (ks, 1) = (ks, 1) := by
  cases t <;> rfl

theorem tlk_marker (ks : List String) (m : RowMarker) :
    (dumpMarker m).foldl tlkStep (ks, 1) = (ks, 1) := by
  rcases m with ⟨ts, _ | ⟨ttl, exp⟩⟩ <;> rfl

theorem tlk_cell (ks : List String) (c : Cell) :
    (dumpCell c).foldl tlkStep (ks, 2) = (ks, 2) := by
  rcases c with ⟨ts, v, _ | ⟨ttl, exp⟩⟩ | ⟨ts, dt⟩ <;> rfl

theorem tlk_cells (cells : Row) : ∀ ks : List String,
    (evConcat (fun nc => .keyE nc.1 :: dumpCell nc.2) cells).foldl tlkStep (ks, 2) = (ks, 2) := by
  induction cells with
  | nil => intro ks; rfl
  | cons nc rest ih =>
    intro ks
    show ((.keyE nc.1 :: dumpCell nc.2) ++
      evConcat (fun nc => .keyE nc.1 :: dumpCell nc.2) rest).foldl tlkStep (ks, 2) = (ks, 2)
    rw [List.foldl_append]
    show (evConcat (fun nc => .keyE nc.1 :: dumpCell nc.2) rest).foldl tlkStep
      ((dumpCell nc.2).foldl tlkStep (ks, 2)) = (ks, 2)
    rw [tlk_cell ks nc.2]
    exact ih ks

theorem tlk_row (ks : List String) (cells : Row) :
    (dumpRow cells).foldl tlkStep (ks, 1) = (ks, 1) := by
  show ([JsonEvent.startObjectE] ++
    evConcat (fun nc => JsonEvent.keyE nc.1 :: dumpCell nc.2) cells ++
    [JsonEvent.endObjectE]).foldl tlkStep (ks, 1) = (ks, 1)
  rw [List.foldl_append, List.foldl_append]
  rw [show ([JsonEvent.startObjectE]).foldl tlkStep (ks, 1) = (ks, 2) from rfl]
  rw [tlk_cells cells ks]
  rfl

/-- C10: confirmed.  In the dump of a clustering row, the top-level keys
tombstone and shadowable_tombstone appear exactly together: both are
present when the row tombstone is set (the shadowable component possibly
dumped as an empty object), and neither is present when it is empty. -/
theorem c10_crow_tombstone_keys (key : Bytes) (tomb : RowTombstone)
    (marker : Option RowMarker) (cells : Row) :
    ("tombstone" ∈ topLevelKeys (dumpClusteringRow key tomb marker cells) ↔
      tomb.isPresent = true) ∧
    ("shadowable_tombstone" ∈ topLevelKeys (dumpClusteringRow key tomb marker cells) ↔
      tomb.isPresent = true) := by
  have hexp : topLevelKeys (dumpClusteringRow key tomb marker cells) =
      ["type", "key"] ++
      (if tomb.isPresent then ["tombstone", "shadowable_tombstone"] else []) ++
      (match marker with | some _ => ["marker"] | none => []) ++ ["columns"] := by
    unfold topLevelKeys dumpClusteringRow
    cases htp : tomb.isPresent <;> cases marker <;>
      simp [htp, List.foldl_append, List.foldl_cons, List.foldl_nil, tlkStep,
        tlk_keyObj, tlk_tombstone, tlk_marker, tlk_row]
  rw [hexp]
  cases htp : tomb.isPresent <;> cases marker <;> simp


/-! ## Claim C3

The reader driver consume_reader, over a reader modelled as the list of
fragments it will produce.  A consumer is modelled by its stop decisions;
the observable behaviour is the sequence of calls the driver makes on it. -/

def fragIsPS : Fragment → Bool
  | .partitionStart _ _ => true
  | _ => false

def fragIsPE : Fragment → Bool
  | .partitionEnd => true
  | _ => false

structure Consumer where
  stopNewSstable : Bool
  stopOn : Fragment → Bool

inductive CCall where
  | onNewSstable
  | consume (f : Fragment)
  | onEndOfSstable
  deriving DecidableEq, Repr

/-- rd.next_partition(): drop fragments up to the next partition start (a
no-op when the reader is already at a partition boundary). -/
def nextPartition (frags : List Fragment) : List Fragment :=
  frags.dropWhile (fun f => !fragIsPS f)

/-- The no_skips drain: pop fragments until one is_end_of_partition
(inclusive) or end of stream. -/
def drainToPartitionEnd : List Fragment → List Fragment
  | [] => []
  | f :: rest => if fragIsPE f then rest else drainToPartitionEnd rest

/-- rd.consume_pausable(consumer_wrapper(consumer, filter)) starting with
the given skip_partition flag: feeds fragments to the wrapper until it
returns stop (a consumer stop, or a filtered-out partition start, which
sets skip_partition) or end of stream.  Returns the remaining fragments,
the consume calls made, and the final skip_partition flag. -/
def consumePausable (c : Consumer) (filter : Option (Bytes → Bool)) :
    Bool → List Fragment → List Fragment × List CCall × Bool
  | skip, [] => ([], [], skip)
  | skip, f :: rest =>
    match f, filter with
    | .partitionStart k _, some flt =>
      if flt k then
        if c.stopOn f then (rest, [.consume f], false)
        else
          let r := consumePausable c filter false rest
          (r.1, .consume f :: r.2.1, r.2.2)
      else (rest, [], true)
    | _, _ =>
      if c.stopOn f then (rest, [.consume f], skip)
      else
        let r := consumePausable c filter skip rest
        (r.1, .consume f :: r.2.1, r.2.2)

/-- The body of consume_reader's while loop: resume consume_pausable, then
dispatch on the pause cause exactly as the code does: on a consumer stop
with a next fragment that is not a partition start, break; on a consumer
stop at a partition boundary, deliver a synthetic partition_end and either
break (consumer stops again) or advance; on a filtered partition, advance. -/
def consumeReaderLoop (c : Consumer) (filter : Option (Bytes → Bool)) (noSkips : Bool) :
    Nat → List Fragment → List CCall
  | 0, _ => []
  | _ + 1, [] => []
  | fuel + 1, f0 :: frags0 =>
    let r := consumePausable c filter false (f0 :: frags0)
    let rest := r.1
    let calls := r.2.1
    let skip := r.2.2
    if skip then
      calls ++ consumeReaderLoop c filter noSkips fuel
        (if noSkips then drainToPartitionEnd rest else nextPartition rest)
    else
      match rest with
      | [] => calls
      | mfp :: _ =>
        if !fragIsPS mfp then calls
        else if c.stopOn .partitionEnd then calls ++ [.consume .partitionEnd]
        else
          calls ++ [.consume .partitionEnd] ++
            consumeReaderLoop c filter noSkips fuel
              (if noSkips then drainToPartitionEnd rest else nextPartition rest)

/-- consume_reader: on_new_sstable first (a stop skips the whole content),
then the pausable loop, then on_end_of_sstable. -/
def consume_reader (c : Consumer) (filter : Option (Bytes → Bool)) (noSkips : Bool)
    (frags : List Fragment) : List CCall :=
  if c.stopNewSstable then [.onNewSstable, .onEndOfSstable]
  else
    [.onNewSstable] ++ consumeReaderLoop c filter noSkips (frags.length + 1) frags ++
      [.onEndOfSstable]

/-- Modelled from the spec: the claimed driver behaviour.  On a stop from
consume of a partition_start, static_row, clustering_row or
range_tombstone_change, deliver a synthetic partition_end and advance to
the next partition (drain to the partition end when no_skips, otherwise
the reader's native skip); a stop from consume(partition_end) skips the
rest of the sstable. -/
def claimedConsumeReaderLoop (c : Consumer) (noSkips : Bool) : Nat → List Fragment → List CCall
  | 0, _ => []
  | _ + 1, [] => []
  | fuel + 1, f :: rest =>
    .consume f ::
      (if c.stopOn f then
        match f with
        | .partitionEnd => []
        | _ =>
          .consume .partitionEnd ::
            (if c.stopOn .partitionEnd then []
             else claimedConsumeReaderLoop c noSkips fuel
               (if noSkips then drainToPartitionEnd rest else nextPartition rest))
      else claimedConsumeReaderLoop c noSkips fuel rest)

/-- Modelled from the spec: the claimed consume_reader. -/
def claimedConsumeReader (c : Consumer) (noSkips : Bool) (frags : List Fragment) : List CCall :=
  if c.stopNewSstable then [.onNewSstable, .onEndOfSstable]
  else
    [.onNewSstable] ++ claimedConsumeReaderLoop c noSkips (frags.length + 1) frags ++
      [.onEndOfSstable]

/-- A consumer that stops on every clustering row. -/
def c3stopCR : Consumer :=
  ⟨false, fun f => match f with | .clusteringRow _ _ _ _ => true | _ => false⟩

/-- A consumer that stops on every partition end. -/
def c3stopPE : Consumer :=
  ⟨false, fun f => match f with | .partitionEnd => true | _ => false⟩

/-- A two-partition reader. -/
def c3frags : List Fragment :=
  [.partitionStart [1] none, .clusteringRow [2] RowTombstone.empty none [],
   .partitionEnd, .partitionStart [3] none,
   .clusteringRow [4] RowTombstone.empty none [], .partitionEnd]

/-- C3: code bug.  On a mid-partition stop (here from consume of the first
clustering row) the driver breaks out of the whole sstable — the consumer
never receives a synthetic partition_end and never sees the second
partition — while the claimed (and interface-documented) behaviour
delivers the synthetic partition_end and continues with the next
partition.  Dually, a stop from consume(partition_end) does not skip the
rest of the sstable: the driver delivers a further synthetic partition_end
before stopping. -/
theorem c3_mid_partition_stop_bug :
    consume_reader c3stopCR none false c3frags =
      [.onNewSstable, .consume (.partitionStart [1] none),
       .consume (.clusteringRow [2] RowTombstone.empty none []), .onEndOfSstable] ∧
    claimedConsumeReader c3stopCR false c3frags =
      [.onNewSstable, .consume (.partitionStart [1] none),
       .consume (.clusteringRow [2] RowTombstone.empty none []), .consume .partitionEnd,
       .consume (.partitionStart [3] none),
       .consume (.clusteringRow [4] RowTombstone.empty none []), .consume .partitionEnd,
       .onEndOfSstable] ∧
    consume_reader c3stopCR none false c3frags ≠ claimedConsumeReader c3stopCR false c3frags ∧
    consume_reader c3stopPE none false c3frags =
      [.onNewSstable, .consume (.partitionStart [1] none),
       .consume (.clusteringRow [2] RowTombstone.empty none []), .consume .partitionEnd,
       .consume .partitionEnd, .onEndOfSstable] ∧
    claimedConsumeReader c3stopPE false c3frags =
      [.onNewSstable, .consume (.partitionStart [1] none),
       .consume (.clusteringRow [2] RowTombstone.empty none []), .consume .partitionEnd,
       .onEndOfSstable] := by
  refine ⟨by decide, by decide, by decide, by decide, by decide⟩


/-! ## Claim C4

The writetime-histogram consumer.  The std::map histogram is modelled as a
key-sorted association list; collection follows
writetime_histogram_collecting_consumer fragment by fragment. -/

inductive HBucket where
  | years
  | months
  | weeks
  | days
  | hours
  deriving DecidableEq, Repr

/-- The std::chrono widths of the buckets, in microseconds (years =
31556952 s, months = 2629746 s). -/
def bucketWidth : HBucket → Int
  | .years => 31556952000000
  | .months => 2629746000000
  | .weeks => 604800000000
  | .days => 86400000000
  | .hours => 3600000000

/-- timestamp_bucket: duration_cast to the bucket unit and back
(duration_cast truncates toward zero). -/
def timestamp_bucket (b : HBucket) (ts : Int) : Int :=
  (ts.tdiv (bucketWidth b)) * bucketWidth b

/-- api::missing_timestamp (the timestamp of a default-constructed
tombstone). -/
def missing_timestamp : Int := -(2 ^ 63)

/-- One insertion into the sorted histogram (std::map::emplace + increment). -/
def histInsert (ts : Int) : List (Int × Nat) → List (Int × Nat)
  | [] => [(ts, 1)]
  | (k, n) :: rest =>
    if ts < k then (ts, 1) :: (k, n) :: rest
    else if ts = k then (k, n + 1) :: rest
    else (k, n) :: histInsert ts rest

/-- collect_timestamp: bucket, then count. -/
def collect_timestamp (b : HBucket) (ts : Int) (hist : List (Int × Nat)) : List (Int × Nat) :=
  histInsert (timestamp_bucket b ts) hist

def cellTimestamp : Cell → Int
  | .live ts _ _ => ts
  | .dead ts _ => ts

/-- collect_row for the atomic-cell subset: one timestamp per cell, in row
order. -/
def collect_row (b : HBucket) (cells : Row) (hist : List (Int × Nat)) : List (Int × Nat) :=
  cells.foldl (fun h nc => collect_timestamp b (cellTimestamp nc.2) h) hist

/-- The consume(...) overloads: partition_start collects the partition
tombstone's timestamp when set; static_row collects its cells;
clustering_row collects the marker timestamp when not missing, the row
tombstone's timestamp when the row tombstone is engaged, then the cells;
range_tombstone_change collects the tombstone timestamp unconditionally
(an absent tombstone contributes api::missing_timestamp); partition_end
collects nothing. -/
def collectFragment (b : HBucket) (hist : List (Int × Nat)) : Fragment → List (Int × Nat)
  | .partitionStart _ t =>
    match t with
    | some tb => collect_timestamp b tb.timestamp hist
    | none => hist
  | .staticRow cells => collect_row b cells hist
  | .clusteringRow _ tomb marker cells =>
    collect_row b cells
      (if tomb.regular.isSome || tomb.shadowable.isSome then
        collect_timestamp b ((tomb.shadowable.getD ⟨missing_timestamp, 0⟩).timestamp)
          (match marker with
           | some m => collect_timestamp b m.timestamp hist
           | none => hist)
      else
        (match marker with
         | some m => collect_timestamp b m.timestamp hist
         | none => hist))
  | .rangeTombstoneChange _ _ t =>
    collect_timestamp b ((t.getD ⟨missing_timestamp, 0⟩).timestamp) hist
  | .partitionEnd => hist

def histogramOfStream (b : HBucket) (frags : List Fragment) : List (Int × Nat) :=
  frags.foldl (collectFragment b) []

structure HistWrite where
  filename : String
  buckets : List Int
  counts : List Nat
  deriving DecidableEq, Repr

/-- on_end_of_stream: nothing is written when the histogram is empty;
otherwise histogram.json is written with the paired key and count arrays
in map (ascending key) order. -/
def writetime_histogram_end_of_stream (hist : List (Int × Nat)) : Option HistWrite :=
  if hist.isEmpty then none
  else some ⟨"histogram.json", hist.map Prod.fst, hist.map Prod.snd⟩

/-- The bucketed timestamps a fragment contributes, in collection order. -/
def fragTimestamps : Fragment → List Int
  | .partitionStart _ t =>
    match t with
    | some tb => [tb.timestamp]
    | none => []
  | .staticRow cells => cells.map (fun nc => cellTimestamp nc.2)
  | .clusteringRow _ tomb marker cells =>
    (match marker with
     | some m => [m.timestamp]
     | none => []) ++
    (if tomb.regular.isSome || tomb.shadowable.isSome then
      [(tomb.shadowable.getD ⟨missing_timestamp, 0⟩).timestamp]
     else []) ++
    cells.map (fun nc => cellTimestamp nc.2)
  | .rangeTombstoneChange _ _ t => [(t.getD ⟨missing_timestamp, 0⟩).timestamp]
  | .partitionEnd => []

/-- All timestamps collected from a stream, already bucketed, in order. -/
def collectedTimestamps (b : HBucket) (frags : List Fragment) : List Int :=
  (frags.flatMap fragTimestamps).map (timestamp_bucket b)

def histCount (h : List (Int × Nat)) (k : Int) : Nat :=
  ((h.find? (fun p => p.1 = k)).map Prod.snd).getD 0

theorem histInsert_mem_key (ts : Int) : ∀ (h : List (Int × Nat)) (q : Int × Nat),
    q ∈ histInsert ts h → q.1 = ts ∨ ∃ m, (q.1, m) ∈ h := by
  intro h
  induction h with
  | nil =>
    intro q hq
    simp [histInsert] at hq
    subst hq
    exact .inl rfl
  | cons p rest ih =>
    obtain ⟨k, n⟩ := p
    intro q hq
    unfold histInsert at hq
    by_cases h1 : ts < k
    · rw [if_pos h1] at hq
      rcases List.mem_cons.mp hq with rfl | hq
      · exact .inl rfl
      · exact .inr ⟨q.2, hq⟩
    · by_cases h2 : ts = k
      · rw [if_neg h1, if_pos h2] at hq
        rcases List.mem_cons.mp hq with rfl | hq
        · exact .inl h2.symm
        · exact .inr ⟨q.2, List.mem_cons_of_mem _ hq⟩
      · rw [if_neg h1, if_neg h2] at hq
        rcases List.mem_cons.mp hq with rfl | hq
        · exact .inr ⟨n, List.mem_cons_self _ _⟩
        · rcases ih q hq with h | ⟨m, hm⟩
          · exact .inl h
          · exact .inr ⟨m, List.mem_cons_of_mem _ hm⟩

theorem histInsert_sorted (ts : Int) : ∀ h : List (Int × Nat),
    h.Pairwise (fun a b => a.1 < b.1) →
    (histInsert ts h).Pairwise (fun a b => a.1 < b.1) := by
  intro h
  induction h with
  | nil =>
    intro
    simp [histInsert]
  | cons p rest ih =>
    obtain ⟨k, n⟩ := p
    intro hs
    rw [List.pairwise_cons] at hs
    obtain ⟨hlt, hrest⟩ := hs
    unfold histInsert
    by_cases h1 : ts < k
    · rw [if_pos h1]
      refine List.pairwise_cons.mpr ⟨?_, List.pairwise_cons.mpr ⟨hlt, hrest⟩⟩
      intro q hq
      rcases List.mem_cons.mp hq with rfl | hq
      · exact h1
      · exact lt_trans h1 (hlt q hq)
    · by_cases h2 : ts = k
      · rw [if_neg h1, if_pos h2]
        exact List.pairwise_cons.mpr ⟨hlt, hrest⟩
      · rw [if_neg h1, if_neg h2]
        refine List.pairwise_cons.mpr ⟨?_, ih hrest⟩
        intro q hq
        rcases histInsert_mem_key ts rest q hq with hts | ⟨m, hm⟩
        · rw [hts]
          omega
        · exact hlt (q.1, m) hm

theorem histCount_eq_zero_of_lt (k : Int) : ∀ h : List (Int × Nat),
    (∀ p ∈ h, k < p.1) → histCount h k = 0 := by
  intro h
  induction h with
  | nil => intro; rfl
  | cons p rest ih =>
    obtain ⟨k0, n0⟩ := p
    intro hall
    have hk0 : k < k0 := hall (k0, n0) (List.mem_cons_self _ _)
    have : ¬ (k0 = k) := by omega
    simp only [histCount, List.find?]
    rw [show (decide (k0 = k)) = false from by simpa using this]
    exact ih (fun p hp => hall p (List.mem_cons_of_mem _ hp))

theorem histCount_insert (ts k : Int) : ∀ h : List (Int × Nat),
    h.Pairwise (fun a b => a.1 < b.1) →
    histCount (histInsert ts h) k = histCount h k + (if ts = k then 1 else 0) := by
  intro h
  induction h with
  | nil =>
    intro
    by_cases hk : ts = k <;> simp [histInsert, histCount, List.find?, hk]
  | cons p rest ih =>
    obtain ⟨k0, n0⟩ := p
    intro hs
    rw [List.pairwise_cons] at hs
    obtain ⟨hlt, hrest⟩ := hs
    unfold histInsert
    by_cases h1 : ts < k0
    · rw [if_pos h1]
      by_cases hk : ts = k
      · rw [if_pos hk]
        have hz : histCount ((k0, n0) :: rest) k = 0 := by
          refine histCount_eq_zero_of_lt k _ ?_
          intro p hp
          rcases List.mem_cons.mp hp with rfl | hp
          · omega
          · have := hlt p hp
            omega
        rw [hz]
        simp [histCount, List.find?, hk]
      · rw [if_neg hk]
        simp only [histCount, List.find?]
        rw [show (decide (ts = k)) = false from by simpa using hk]
        simp
    · by_cases h2 : ts = k0
      · rw [if_neg h1, if_pos h2]
        by_cases hk : k0 = k
        · simp [histCount, List.find?, hk, h2.trans hk]
        · have hts : ¬ (ts = k) := by omega
          simp only [histCount, List.find?]
          rw [show (decide (k0 = k)) = false from by simpa using hk, if_neg hts]
          simp
      · rw [if_neg h1, if_neg h2]
        by_cases hk : k0 = k
        · simp only [histCount, List.find?]
          rw [show (decide (k0 = k)) = true from by simpa using hk]
          have : ¬ (ts = k) := by omega
          rw [if_neg this]
          simp
        · simp only [histCount, List.find?]
          rw [show (decide (k0 = k)) = false from by simpa using hk]
          exact ih hrest

theorem histFold_sorted (l : List Int) : ∀ h : List (Int × Nat),
    h.Pairwise (fun a b => a.1 < b.1) →
    (l.foldl (fun acc ts => histInsert ts acc) h).Pairwise (fun a b => a.1 < b.1) := by
  induction l with
  | nil => intro h hs; exact hs
  | cons t l ih =>
    intro h hs
    exact ih (histInsert t h) (histInsert_sorted t h hs)

theorem histCount_fold (l : List Int) : ∀ (h : List (Int × Nat)) (k : Int),
    h.Pairwise (fun a b => a.1 < b.1) →
    histCount (l.foldl (fun acc ts => histInsert ts acc) h) k = histCount h k + l.count k := by
  induction l with
  | nil =>
    intro h k _
    simp
  | cons t l ih =>
    intro h k hs
    rw [List.foldl_cons, ih (histInsert t h) k (histInsert_sorted t h hs),
      histCount_insert t k h hs, List.count_cons]
    by_cases hk : t = k
    · subst hk
      simp
      omega
    · have hbe : (t == k) = false := by simpa using hk
      rw [if_neg hk, hbe]
      simp

theorem histCount_of_mem : ∀ h : List (Int × Nat),
    h.Pairwise (fun a b => a.1 < b.1) →
    ∀ p ∈ h, histCount h p.1 = p.2 := by
  intro h
  induction h with
  | nil =>
    intro _ p hp
    simp at hp
  | cons q rest ih =>
    obtain ⟨k0, n0⟩ := q
    intro hs p hp
    rw [List.pairwise_cons] at hs
    obtain ⟨hlt, hrest⟩ := hs
    rcases List.mem_cons.mp hp with rfl | hp
    · simp [histCount, List.find?]
    · have hne : ¬ (k0 = p.1) := by
        have := hlt p hp
        omega
      simp only [histCount, List.find?]
      rw [show (decide (k0 = p.1)) = false from by simpa using hne]
      exact ih hrest p hp

theorem histCount_mem_of_ne_zero (k : Int) : ∀ h : List (Int × Nat),
    histCount h k ≠ 0 → ∃ n, (k, n) ∈ h := by
  intro h hne
  rcases hf : h.find? (fun p => p.1 = k) with _ | p
  · exfalso
    apply hne
    simp [histCount, hf]
  · have hmem := List.mem_of_find?_eq_some hf
    have hpk : p.1 = k := by
      have := List.find?_some hf
      simpa using this
    exact ⟨p.2, by rw [← hpk]; exact hmem⟩

theorem collectFragment_eq (b : HBucket) (hist : List (Int × Nat)) (f : Fragment) :
    collectFragment b hist f =
      (fragTimestamps f).foldl (fun acc ts => histInsert (timestamp_bucket b ts) acc) hist := by
  cases f with
  | partitionStart k t => cases t <;> rfl
  | staticRow cells =>
    simp [collectFragment, collect_row, fragTimestamps, List.foldl_map, collect_timestamp]
  | clusteringRow k tomb marker cells =>
    cases marker <;>
      by_cases htr : tomb.regular.isSome || tomb.shadowable.isSome <;>
        simp [collectFragment, collect_row, fragTimestamps, List.foldl_map, collect_timestamp,
          htr]
  | rangeTombstoneChange k w t => rfl
  | partitionEnd => rfl

theorem histogramOfStream_fold (b : HBucket) (frags : List Fragment) :
    ∀ h : List (Int × Nat),
    frags.foldl (collectFragment b) h =
      ((frags.flatMap fragTimestamps).map (timestamp_bucket b)).foldl
        (fun acc ts => histInsert ts acc) h := by
  induction frags with
  | nil => intro h; rfl
  | cons f rest ih =>
    intro h
    rw [List.foldl_cons, ih (collectFragment b h f), List.flatMap_cons, List.map_append,
      List.foldl_append, collectFragment_eq]
    simp [List.foldl_map]

theorem histogramOfStream_eq (b : HBucket) (frags : List Fragment) :
    histogramOfStream b frags =
      (collectedTimestamps b frags).foldl (fun acc ts => histInsert ts acc) [] :=
  histogramOfStream_fold b frags []

theorem histogramOfStream_sorted (b : HBucket) (frags : List Fragment) :
    (histogramOfStream b frags).Pairwise (fun a c => a.1 < c.1) := by
  rw [histogramOfStream_eq]
  exact histFold_sorted _ [] List.Pairwise.nil

theorem histogramOfStream_count (b : HBucket) (frags : List Fragment) :
    ∀ p ∈ histogramOfStream b frags, p.2 = (collectedTimestamps b frags).count p.1 := by
  intro p hp
  have hs := histogramOfStream_sorted b frags
  have h1 := histCount_of_mem _ hs p hp
  have h2 := histCount_fold (collectedTimestamps b frags) [] p.1 List.Pairwise.nil
  rw [← histogramOfStream_eq] at h2
  rw [h1] at h2
  simpa [histCount] using h2

theorem histogramOfStream_complete (b : HBucket) (frags : List Fragment) :
    ∀ t ∈ collectedTimestamps b frags, ∃ n, (t, n) ∈ histogramOfStream b frags := by
  intro t ht
  apply histCount_mem_of_ne_zero
  have h2 := histCount_fold (collectedTimestamps b frags) [] t List.Pairwise.nil
  rw [← histogramOfStream_eq] at h2
  have : histCount ([] : List (Int × Nat)) t = 0 := rfl
  rw [this] at h2
  rw [h2]
  have := List.count_pos_iff.mpr ht
  omega

theorem histogramOfStream_nil_iff (b : HBucket) (frags : List Fragment) :
    histogramOfStream b frags = [] ↔ collectedTimestamps b frags = [] := by
  constructor
  · intro h
    rcases hL : collectedTimestamps b frags with _ | ⟨t, rest⟩
    · rfl
    · exfalso
      obtain ⟨n, hn⟩ := histogramOfStream_complete b frags t (by rw [hL]; simp)
      rw [h] at hn
      simp at hn
  · intro h
    rw [histogramOfStream_eq, h]
    rfl

/-- The full statement checked for claim C4: the histogram file is written
exactly when at least one timestamp was collected; when written it is
histogram.json, its buckets are strictly ascending, and its counts are
paired with the buckets, each count being the number of collected
timestamps falling in that bucket (and every collected timestamp falls in
some listed bucket). -/
def C4Prop (b : HBucket) (frags : List Fragment) : Prop :=
  (writetime_histogram_end_of_stream (histogramOfStream b frags) = none ↔
    collectedTimestamps b frags = []) ∧
  ((histogramOfStream b frags).map Prod.fst).Pairwise (fun a c => a < c) ∧
  (∀ p ∈ histogramOfStream b frags, p.2 = (collectedTimestamps b frags).count p.1) ∧
  (∀ t ∈ collectedTimestamps b frags, ∃ n, (t, n) ∈ histogramOfStream b frags) ∧
  (∀ w, writetime_histogram_end_of_stream (histogramOfStream b frags) = some w →
    w.filename = "histogram.json" ∧
    w.buckets = (histogramOfStream b frags).map Prod.fst ∧
    w.counts = (histogramOfStream b frags).map Prod.snd)

/-- C4: corrected.  When the histogram is nonempty the tool writes
histogram.json with paired bucket/count arrays sorted ascending by bucket;
but a run that reaches end of stream having collected no timestamp writes
no file at all (the claimed unconditional write is wrong). -/
theorem c4_histogram_output (b : HBucket) (frags : List Fragment) : C4Prop b frags := by
  refine ⟨?_, List.pairwise_map.mpr (histogramOfStream_sorted b frags),
    histogramOfStream_count b frags, histogramOfStream_complete b frags, ?_⟩
  · unfold writetime_histogram_end_of_stream
    rw [← histogramOfStream_nil_iff b frags]
    rcases histogramOfStream b frags with _ | ⟨p, rest⟩ <;> simp
  · intro w hw
    unfold writetime_histogram_end_of_stream at hw
    rcases hh : histogramOfStream b frags with _ | ⟨p, rest⟩
    · rw [hh] at hw
      simp at hw
    · rw [hh] at hw
      simp at hw
      refine ⟨by rw [← hw], ?_, ?_⟩ <;> rw [← hw] <;> simp


/-- C4 counterexample: a run that reaches end of stream having consumed a
whole (empty) partition collects no timestamp, and the tool writes no
histogram.json at all, against the claimed unconditional write. -/
theorem c4_empty_run_counterexample :
    histogramOfStream .months [.partitionStart [1] none, .partitionEnd] = [] ∧
    writetime_histogram_end_of_stream
      (histogramOfStream .months [.partitionStart [1] none, .partitionEnd]) = none :=
  ⟨rfl, rfl⟩


/-! ## Claim C8

write_operation up to its first effect.  The command line is modelled by
the option values the operation reads; the prospective output path check
(file_exists on the would-be Data component) is a boolean input.  The ok
value carries the inputs of the effects that follow the checks (the input
file opened for reading and the generation written). -/

inductive ValidationLevel where
  | partition_region
  | token
  | partition_key
  | clustering_key
  deriving DecidableEq, Repr

def valid_validation_levels : List (String × ValidationLevel) :=
  [("partition_region", .partition_region), ("token", .token),
   ("partition_key", .partition_key), ("clustering_key", .clustering_key)]

structure WriteArgs where
  sstables : List String
  inputFile : Option String
  validationLevel : String
  outputDir : String
  generation : Option Int
  deriving DecidableEq, Repr

def write_operation (args : WriteArgs) (outputExists : Bool) :
    Except String (String × Int) :=
  match args.sstables with
  | _ :: _ => .error "error: write operation does not operate on input sstables"
  | [] =>
    match args.inputFile with
    | none => .error "error: missing required option --input-file"
    | some infile =>
      match (valid_validation_levels.find? (fun v => v.1 = args.validationLevel)).map
          Prod.snd with
      | none => .error ("error: invalid validation-level " ++ args.validationLevel)
      | some _ =>
        match args.generation with
        | none => .error "error: missing required option --generation"
        | some gen =>
          if outputExists then
            .error "error: cannot create output sstable, file already exists"
          else
            .ok (infile, gen)

/-- C8: confirmed.  Whenever input sstables were given, or the input-file
option is missing, or the generation option is missing, or the prospective
output sstable path already exists, write_operation fails with an error
and produces no effect (the effects are the payload of the ok result,
which is only reached after every check passes). -/
theorem c8_write_preconditions (args : WriteArgs) (outputExists : Bool)
    (hviol : args.sstables ≠ [] ∨ args.inputFile = none ∨ args.generation = none ∨
      outputExists = true) :
    ∃ e, write_operation args outputExists = .error e := by
  rcases args with ⟨ssts, infile, vl, outdir, gen⟩
  cases ssts with
  | cons s rest => exact ⟨_, rfl⟩
  | nil =>
    cases infile with
    | none => exact ⟨_, rfl⟩
    | some f =>
      simp only [ne_eq, not_true_eq_false, false_or, reduceCtorEq, or_false] at hviol
      rcases hm : (valid_validation_levels.find?
          (fun v => v.1 = vl)).map Prod.snd with _ | vlv
      · exact ⟨"error: invalid validation-level " ++ vl, by simp only [write_operation, hm]⟩
      · cases gen with
        | none =>
          exact ⟨"error: missing required option --generation", by
            simp only [write_operation, hm]⟩
        | some g =>
          rcases hviol with h | h
          · simp at h
          · subst h
            exact ⟨"error: cannot create output sstable, file already exists", by
              simp only [write_operation, hm, if_true]⟩

theorem c8_write_preconditions_witness :
    (([] : List String) ≠ [] ∨ (some "stream.json" : Option String) = none ∨
      (none : Option Int) = none ∨ false = true) ∧
    ∃ e, write_operation ⟨[], some "stream.json", "clustering_key", "out", none⟩ false =
      .error e :=
  ⟨.inr (.inr (.inl rfl)),
   c8_write_preconditions ⟨[], some "stream.json", "clustering_key", "out", none⟩ false
     (.inr (.inr (.inl rfl)))⟩


/-! ## Claim C9

The per-sstable body of decompress_operation.  An input sstable is its
filename, whether it is compressed, and the chunk sequence its decompressing
data stream yields (an error chunk models a failure during decompression).
The observable behaviour is the list of filesystem actions performed and
the error that aborted the loop body, if any. -/

structure OpenFlags where
  write : Bool
  create : Bool
  exclusive : Bool
  deriving DecidableEq, Repr

inductive FsAction where
  | openFile (name : String) (flags : OpenFlags)
  | writeChunk (name : String) (data : String)
  | unlink (name : String)
  deriving DecidableEq, Repr

structure InSstable where
  filename : String
  compressed : Bool
  chunks : List (Except String String)
  deriving Repr

/-- The istream.consume loop: write each decompressed chunk to the output
stream; an error aborts (the actions already performed stand). -/
def consumeChunks (name : String) : List (Except String String) → List FsAction × Option String
  | [] => ([], none)
  | .error e :: _ => ([], some e)
  | .ok c :: rest =>
    let r := consumeChunks name rest
    (.writeChunk name c :: r.1, r.2)

/-- One iteration of decompress_operation's loop: skip non-compressed
sstables; otherwise open <original>.decompressed with
open_flags::wo | open_flags::create (write and create, no exclusive) and
copy the decompressed chunks.  There is no cleanup path: an error leaves
every action performed so far in place. -/
def decompress_one (sst : InSstable) : List FsAction × Option String :=
  if sst.compressed then
    let r := consumeChunks (sst.filename ++ ".decompressed") sst.chunks
    (.openFile (sst.filename ++ ".decompressed") ⟨true, true, false⟩ :: r.1, r.2)
  else ([], none)

theorem consumeChunks_no_unlink (name : String) :
    ∀ chunks, ∀ a ∈ (consumeChunks name chunks).1, ∀ n, a ≠ FsAction.unlink n := by
  intro chunks
  induction chunks with
  | nil =>
    intro a ha
    simp [consumeChunks] at ha
  | cons c rest ih =>
    intro a ha n
    cases c with
    | error e => simp [consumeChunks] at ha
    | ok s =>
      simp only [consumeChunks, List.mem_cons] at ha
      rcases ha with rfl | ha
      · simp
      · exact ih a ha n

/-- C9: corrected.  A non-compressed sstable is skipped (no action, no
error); a compressed sstable has its sibling output <original>.decompressed
opened with write and create but without exclusive — the open does not fail
when the output already exists, it overwrites it in place — and no unlink
is ever performed, so on an error during decompression the partially
written output file remains. -/
theorem c9_decompress_behaviour (sst : InSstable) :
    (sst.compressed = false → decompress_one sst = ([], none)) ∧
    (sst.compressed = true →
      ((decompress_one sst).1.head? =
        some (.openFile (sst.filename ++ ".decompressed") ⟨true, true, false⟩) ∧
       (⟨true, true, false⟩ : OpenFlags).exclusive = false)) ∧
    (∀ a ∈ (decompress_one sst).1, ∀ n, a ≠ FsAction.unlink n) := by
  refine ⟨?_, ?_, ?_⟩
  · intro h
    simp [decompress_one, h]
  · intro h
    simp [decompress_one, h]
  · intro a ha n
    unfold decompress_one at ha
    rcases hc : sst.compressed with _ | _
    · rw [hc] at ha
      simp at ha
    · rw [hc] at ha
      simp only [if_true, List.mem_cons] at ha
      rcases ha with rfl | ha
      · simp
      · exact consumeChunks_no_unlink _ sst.chunks a ha n

/-- C9 counterexample: a failure in the middle of decompressing a
compressed sstable leaves the opened (non-exclusive) output and the chunks
already written in place — nothing is unlinked — against the claimed
fail-if-exists open and unlink-on-error. -/
theorem c9_error_counterexample :
    decompress_one ⟨"sst", true, [.ok "x", .error "boom"]⟩ =
      ([.openFile "sst.decompressed" ⟨true, true, false⟩,
        .writeChunk "sst.decompressed" "x"], some "boom") ∧
    FsAction.unlink "sst.decompressed" ∉
      (decompress_one ⟨"sst", true, [.ok "x", .error "boom"]⟩).1 := by
  refine ⟨rfl, by decide⟩

end ScyllaSstable
